import Mathlib

/-!
ledmon: VMD/NVMe attention LED driver (`src/vmdssd.c`)

A shallow embedding of `src/vmdssd.c` and the properties of it that the
specification states.

Modelling conventions.

* A C string is the list of its characters before the terminating NUL (`CStr`).
* `strtok` keeps a hidden "saved pointer"; here it is returned explicitly, so a
  call `strtok(NULL, d)` is `strtok saved d`.
* `snprintf(buf, n, ...)` keeps at most `n - 1` characters of the formatted
  text.
* Declarations of the repository that `vmdssd.c` uses but that live in headers
  outside `src/` (enumerators of `enum ibpi_pattern`, status codes,
  `WRITE_BUFFER_SIZE`) are the fields of `Decls`.
* Collaborators outside `vmdssd.c` (`sysfs_get_pci_slots`, `scan_dir`,
  `realpath`, `buf_write`, `get_int`, the logger) are the fields of `Env`.  Every
  call to one of them is appended to `Sys.trace`, and may change `errno` as
  `Env.errno_after` says.
* For the question which memory the code writes, the functions that touch memory
  are given a second time over an explicit memory `Mem` (`strtok_mem`,
  `get_slot_from_syspath_mem`, `vmdssd_find_pci_slot_mem`, `vmdssd_write_mem`), and
  proved to compute what the value-level functions compute.
-/

namespace Vmdssd

/-- A C string: its characters up to, not including, the terminating NUL. -/
abbrev CStr := List Char

/-! ## Declarations taken from outside `src/` -/

/-- Constants that `vmdssd.c` takes from repository headers that are not under `src/`:
the enumerators of `enum ibpi_pattern` it names, two status codes and the size of
the write buffer. -/
structure Decls where
  IBPI_PATTERN_NORMAL : Int
  IBPI_PATTERN_REBUILD : Int
  IBPI_PATTERN_FAILED_DRIVE : Int
  IBPI_PATTERN_LOCATE : Int
  IBPI_PATTERN_LOCATE_OFF : Int
  STATUS_SUCCESS : Int
  STATUS_FILE_WRITE_ERROR : Int
  WRITE_BUFFER_SIZE : Nat

/-- What the specification says about the enumeration: the valid range is
`[normal, locate-off]`, the four table intents lie in it, are pairwise distinct, and
`normal` is none of them. -/
def Decls.enum_ok (D : Decls) : Prop :=
  D.IBPI_PATTERN_NORMAL < D.IBPI_PATTERN_REBUILD ∧
  D.IBPI_PATTERN_NORMAL < D.IBPI_PATTERN_FAILED_DRIVE ∧
  D.IBPI_PATTERN_NORMAL < D.IBPI_PATTERN_LOCATE ∧
  D.IBPI_PATTERN_NORMAL < D.IBPI_PATTERN_LOCATE_OFF ∧
  D.IBPI_PATTERN_REBUILD < D.IBPI_PATTERN_LOCATE_OFF ∧
  D.IBPI_PATTERN_FAILED_DRIVE < D.IBPI_PATTERN_LOCATE_OFF ∧
  D.IBPI_PATTERN_LOCATE < D.IBPI_PATTERN_LOCATE_OFF ∧
  D.IBPI_PATTERN_LOCATE ≠ D.IBPI_PATTERN_FAILED_DRIVE ∧
  D.IBPI_PATTERN_LOCATE ≠ D.IBPI_PATTERN_REBUILD ∧
  D.IBPI_PATTERN_FAILED_DRIVE ≠ D.IBPI_PATTERN_REBUILD

/-- Status codes: success is 0, and the write error is neither 0 nor the -1 of the
errno-style failures. -/
def Decls.status_ok (D : Decls) : Prop :=
  D.STATUS_SUCCESS = 0 ∧ D.STATUS_FILE_WRITE_ERROR ≠ 0 ∧ D.STATUS_FILE_WRITE_ERROR ≠ -1

/-- The write buffer holds every 16-bit value in decimal (five digits and the NUL). -/
def Decls.buffer_ok (D : Decls) : Prop := 6 ≤ D.WRITE_BUFFER_SIZE

instance (D : Decls) : Decidable D.enum_ok := by unfold Decls.enum_ok; infer_instance
instance (D : Decls) : Decidable D.status_ok := by unfold Decls.status_ok; infer_instance
instance (D : Decls) : Decidable D.buffer_ok := by unfold Decls.buffer_ok; infer_instance

/-- A concrete set of declarations that satisfies `enum_ok`, `status_ok` and
`buffer_ok`; the examples run the model with it. Normal is 2 and locate is 10 here. -/
def sample_decls : Decls where
  IBPI_PATTERN_NORMAL := 2
  IBPI_PATTERN_REBUILD := 6
  IBPI_PATTERN_FAILED_DRIVE := 9
  IBPI_PATTERN_LOCATE := 10
  IBPI_PATTERN_LOCATE_OFF := 11
  STATUS_SUCCESS := 0
  STATUS_FILE_WRITE_ERROR := 14
  WRITE_BUFFER_SIZE := 1024

/-- PATH_MAX of `<limits.h>` on Linux. -/
def PATH_MAX : Nat := 4096

/-- EINVAL, ENOENT, ERANGE and ENODEV of `<errno.h>` on Linux. -/
def EINVAL : Int := 22

def ENOENT : Int := 2

def ERANGE : Int := 34

def ENODEV : Int := 19

def ATTENTION_OFF : Int := 0xF

def ATTENTION_LOCATE : Int := 0x7

def ATTENTION_REBUILD : Int := 0x5

def ATTENTION_FAILURE : Int := 0xD

def SYSFS_PCIEHP : CStr := "/sys/module/pciehp".toList

/-- One row of an encoding table (`struct ibpi_value`). -/
structure ibpi_value where
  ibpi : Int
  value : Int
deriving DecidableEq, Repr

/-- The table `ibpi_to_attention` of `vmdssd.c`, rows in source order. -/
def ibpi_to_attention (D : Decls) : List ibpi_value :=
  [ ⟨D.IBPI_PATTERN_LOCATE, ATTENTION_LOCATE⟩,
    ⟨D.IBPI_PATTERN_FAILED_DRIVE, ATTENTION_FAILURE⟩,
    ⟨D.IBPI_PATTERN_REBUILD, ATTENTION_REBUILD⟩,
    ⟨D.IBPI_PATTERN_LOCATE_OFF, ATTENTION_OFF⟩ ]

/-- Modelled from the spec: `get_value_for_ibpi` (a helper outside `src/`) is an
"exact-match lookup against the 4-entry table"; on an intent with no row its
behaviour is "unspecified", which is the parameter `unspecified` here. -/
def get_value_for_ibpi (unspecified : Int → Int) (ibpi : Int) : List ibpi_value → Int
  | [] => unspecified ibpi
  | e :: rest => if e.ibpi = ibpi then e.value else get_value_for_ibpi unspecified ibpi rest

/-- A slot record of the registry (`struct pci_slot`): the fields `vmdssd.c` reads. -/
structure pci_slot where
  sysfs_path : CStr
  address : CStr
deriving DecidableEq, Repr

/-- The fields of `struct block_device` that `vmdssd.c` reads. -/
structure block_device where
  sysfs_path : CStr
  ibpi_prev : Int
deriving DecidableEq, Repr

/-! ## The outside world -/

/-- A call that leaves `vmdssd.c`.  The logger calls carry their format and their
string argument. -/
inductive Call where
  | sysfs_get_pci_slots
  | scan_dir (path : CStr)
  | realpath (path : CStr)
  | get_int (path : CStr) (defval : Int) (name : CStr)
  | buf_write (path : CStr) (buf : CStr)
  | log_debug (fmt : String) (arg : CStr)
  | log_error (fmt : String) (arg : CStr)
deriving DecidableEq, Repr

/-- The collaborators of `vmdssd.c`. `scan_dir` gives the return value (0: the
directory exists and was listed), `realpath` the canonical path (none: NULL),
`buf_write` the byte count (or -1), `errno_after c e` the value of errno after call
`c` made with errno `e`, and `unspecified_value` what the table lookup yields for an
intent that has no row. -/
structure Env where
  sysfs_get_pci_slots : List pci_slot
  scan_dir : CStr → Int
  realpath : CStr → Option CStr
  buf_write : CStr → CStr → Int
  errno_after : Call → Int → Int
  unspecified_value : Int → Int

/-- The part of the process state the model follows: errno and the calls made so
far, oldest first. -/
structure Sys where
  errno : Int
  trace : List Call
deriving DecidableEq, Repr

/-- Record an outside call: it is appended to the trace and errno becomes what the
environment leaves there. -/
def call (env : Env) (c : Call) (s : Sys) : Sys :=
  { errno := env.errno_after c s.errno, trace := s.trace ++ [c] }

/-- Modelled from the spec: the macro `__set_errno_and_return` (a header outside
`src/`) stores the error code in errno and makes the function return -1; this is the
"RangeError" / "DeviceNotFound" / "NotFound" / "InvalidDriver" channel. -/
def __set_errno_and_return (x : Int) (s : Sys) : Int × Sys :=
  (-1, { s with errno := x })

/-! ## String helpers of libc -/

/-- The function strtok(3) on the string `s` (for a NULL first argument: on the
saved rest): skip leading delimiters; no character left gives NULL and the saved
pointer stays at the end; else the token runs up to the next delimiter, which is
overwritten by NUL, and the saved pointer is set behind it (at the end of the string
when the token reaches it). Result: the token (none for NULL) and the saved rest. -/
def strtok (s delim : CStr) : Option CStr × CStr :=
  match s.dropWhile (fun c => delim.contains c) with
  | [] => (none, [])
  | c :: cs =>
    (some (c :: cs.takeWhile (fun x => !delim.contains x)),
      (cs.dropWhile (fun x => !delim.contains x)).drop 1)

/-- The function strrchr(3): the rest of `s` from the last occurrence of `c`. -/
def strrchr (s : CStr) (c : Char) : Option CStr :=
  match s with
  | [] => none
  | x :: xs =>
    match strrchr xs c with
    | some r => some r
    | none => if x = c then some (x :: xs) else none

/-- The text snprintf leaves in a buffer of `size` bytes. -/
def snprintf (size : Nat) (formatted : CStr) : CStr :=
  formatted.take (size - 1)

/-- The function strnlen(3). -/
def strnlen (s : CStr) (maxlen : Nat) : Nat :=
  min s.length maxlen

/-! ## `get_slot_from_syspath` -/

/-- The while loop of `get_slot_from_syspath`. `cur` is the current token, `saved`
the rest strtok still has to read. Each round reads one more token, so `saved` gets
shorter; `fuel` exceeds its length and is never used up. -/
def nvme_loop : (fuel : Nat) → (cur : Option CStr) → (saved : CStr) → saved.length < fuel →
    Option CStr × CStr
  | 0, _, _, h => absurd h (Nat.not_lt_zero _)
  | _ + 1, none, saved, _ => (none, saved)
  | n + 1, some c, saved, h =>
    match hs : strtok saved "/".toList with
    | (none, saved1) => (none, saved1)
    | (some next, saved1) =>
      if next = "nvme".toList then (some c, saved1)
      else nvme_loop n (some next) saved1 (by
        have h1 := (List.dropWhile_sublist (l := saved) (fun c => "/".toList.contains c)).length_le
        unfold strtok at hs
        split at hs
        · simp at hs
        · rename_i c0 cs hd
          rw [hd] at h1
          have h2 := (List.dropWhile_sublist (l := cs)
            (fun x => !"/".toList.contains x)).length_le
          simp only [Prod.mk.injEq] at hs
          rw [← hs.2]
          simp only [List.length_drop, List.length_cons] at h1 ⊢
          omega)

/-- The function `get_slot_from_syspath`: tokenise a copy of the path at "/", stop at
the token that is followed by the token "nvme", and return a copy of that token's
first "."-token (none: NULL). -/
def get_slot_from_syspath (path : CStr) : Option CStr :=
  let first := strtok path "/".toList
  let last := nvme_loop (first.2.length + 1) first.1 first.2 (Nat.lt_succ_self _)
  match last.1 with
  | some cur => (strtok cur ".".toList).1
  | none => (strtok last.2 ".".toList).1

/-! ## `check_slot_module`, `vmdssd_find_pci_slot` -/

/-- The function `check_slot_module`: the return value and the state after it. -/
def check_slot_module (env : Env) (slot_path : CStr) (s : Sys) : Int × Sys :=
  let module_path := snprintf PATH_MAX (slot_path ++ "/module".toList)
  let s1 := call env (Call.scan_dir module_path) s
  if env.scan_dir module_path = 0 then
    let s2 := call env (Call.realpath module_path) s1
    match env.realpath module_path with
    | none => (-1, s2)
    | some real_module_path =>
      if real_module_path ≠ SYSFS_PCIEHP then __set_errno_and_return EINVAL s2
      else (0, s2)
  else __set_errno_and_return ENOENT s1

/-- The `list_for_each` loop of `vmdssd_find_pci_slot`: leave at the first slot whose
address compares equal, with NULL when the list is used up. -/
def slot_scan (pci_addr : CStr) : List pci_slot → Option pci_slot
  | [] => none
  | slot :: rest => if slot.address = pci_addr then some slot else slot_scan pci_addr rest

/-- The function `vmdssd_find_pci_slot`: the slot found (none: NULL) and the state
after it. -/
def vmdssd_find_pci_slot (env : Env) (device_path : CStr) (s : Sys) : Option pci_slot × Sys :=
  match get_slot_from_syspath device_path with
  | none => (none, s)
  | some pci_addr =>
    let s1 := call env Call.sysfs_get_pci_slots s
    match slot_scan pci_addr env.sysfs_get_pci_slots with
    | none => (none, s1)
    | some slot =>
      let r := check_slot_module env slot.sysfs_path s1
      if r.1 < 0 then (none, r.2) else (some slot, r.2)

/-! ## `vmdssd_write_attention_buf`, `vmdssd_write` -/

/-- The decimal text that the conversion "%u" prints. -/
def format_u (val : Nat) : CStr := Nat.toDigits 10 val

/-- The 16-bit value `val` of `vmdssd_write_attention_buf`. -/
def attention_val (D : Decls) (env : Env) (ibpi : Int) : Nat :=
  (get_value_for_ibpi env.unspecified_value ibpi (ibpi_to_attention D) % 65536).toNat

/-- The buffer `buf` of `vmdssd_write_attention_buf`. -/
def attention_buf (D : Decls) (env : Env) (ibpi : Int) : CStr :=
  snprintf D.WRITE_BUFFER_SIZE (format_u (attention_val D env ibpi))

/-- The buffer `attention_path` of `vmdssd_write_attention_buf`. -/
def attention_path (slot : pci_slot) : CStr :=
  snprintf PATH_MAX (slot.sysfs_path ++ "/attention".toList)

/-- The function `vmdssd_write_attention_buf`: the status returned and the state
after it. -/
def vmdssd_write_attention_buf (D : Decls) (env : Env) (slot : pci_slot) (ibpi : Int)
    (s : Sys) : Int × Sys :=
  let s1 := call env (Call.get_int slot.sysfs_path 0 "attention".toList) s
  let s2 := call env (Call.log_debug "%s before: 0x%x\n" slot.address) s1
  let buf := attention_buf D env ibpi
  let s3 := call env (Call.buf_write (attention_path slot) buf) s2
  if env.buf_write (attention_path slot) buf ≠ (strnlen buf D.WRITE_BUFFER_SIZE : Int) then
    let s4 := call env (Call.log_error "%s write error: %d\n" slot.sysfs_path) s3
    (D.STATUS_FILE_WRITE_ERROR, s4)
  else
    let s4 := call env (Call.get_int slot.sysfs_path 0 "attention".toList) s3
    let s5 := call env (Call.log_debug "%s after: 0x%x\n" slot.address) s4
    (D.STATUS_SUCCESS, s5)

/-- The name `short_name` of `vmdssd_write`: the text behind the last "/" of the
path, the whole path when it has none. -/
def short_name (path : CStr) : CStr :=
  match strrchr path '/' with
  | some r => r.drop 1
  | none => path

/-- The function `vmdssd_write`: the value returned and the state after it. -/
def vmdssd_write (D : Decls) (env : Env) (device : block_device) (ibpi : Int) (s : Sys) :
    Int × Sys :=
  if ibpi = device.ibpi_prev then (0, s)
  else if ibpi < D.IBPI_PATTERN_NORMAL ∨ ibpi > D.IBPI_PATTERN_LOCATE_OFF then
    __set_errno_and_return ERANGE s
  else
    match vmdssd_find_pci_slot env device.sysfs_path s with
    | (none, s1) =>
      let s2 := call env
        (Call.log_debug "PCI hotplug slot not found for %s\n" (short_name device.sysfs_path)) s1
      __set_errno_and_return ENODEV s2
    | (some slot, s1) => vmdssd_write_attention_buf D env slot ibpi s1

/-! ## Vocabulary of the specification -/

/-- The "/"-delimited segments of a path, empty ones included:
"a//b" has the segments "a", "" and "b". -/
def segments : CStr → List CStr
  | [] => [[]]
  | c :: cs =>
    if c = '/' then [] :: segments cs
    else
      match segments cs with
      | [] => [[c]]
      | seg :: rest => (c :: seg) :: rest

/-- The part of a segment before its first ".", the whole segment when it has none. -/
def cut_at_dot (seg : CStr) : CStr := seg.takeWhile (fun c => c != '.')

/-- The non-empty segments of a path, in order. -/
def tokens (path : CStr) : List CStr := (segments path).filter (fun t => !t.isEmpty)

/-- The buf_write calls of a trace, in order. -/
def writes (t : List Call) : List (CStr × CStr) :=
  t.filterMap (fun c => match c with
    | Call.buf_write p b => some (p, b)
    | _ => none)

/-- The attention-file reads (get_int calls) of a trace, in order. -/
def reads (t : List Call) : List CStr :=
  t.filterMap (fun c => match c with
    | Call.get_int p _ _ => some p
    | _ => none)

/-- The intents that have a row in `ibpi_to_attention`. -/
def covered_intents (D : Decls) : List Int := (ibpi_to_attention D).map (fun e => e.ibpi)

/-! ## Environments and inputs for examples -/

/-- An environment for examples: the registry holds `slots`, every module entry
exists and canonicalises to `real`, every write is complete, errno is left alone, and
the lookup yields `fallback` for intents without a row. -/
def sample_env (slots : List pci_slot) (real : Option CStr) (fallback : Int) : Env where
  sysfs_get_pci_slots := slots
  scan_dir := fun _ => 0
  realpath := fun _ => real
  buf_write := fun _ b => b.length
  errno_after := fun _ e => e
  unspecified_value := fun _ => fallback

/-- An environment with two slots of the same address "0000:00:1c": the module entry
of the first canonicalises to another driver, that of the second to pciehp. -/
def twin_env : Env where
  sysfs_get_pci_slots :=
    [⟨"/sys/bus/pci/slots/1".toList, "0000:00:1c".toList⟩,
     ⟨"/sys/bus/pci/slots/2".toList, "0000:00:1c".toList⟩]
  scan_dir := fun _ => 0
  realpath := fun p =>
    if p = "/sys/bus/pci/slots/2/module".toList then some SYSFS_PCIEHP
    else some "/sys/module/shpchp".toList
  buf_write := fun _ b => b.length
  errno_after := fun _ e => e
  unspecified_value := fun _ => 0

/-- An environment in which every module entry exists but cannot be canonicalised:
realpath returns NULL and leaves EACCES (13) in errno. -/
def denied_env : Env where
  sysfs_get_pci_slots := [⟨"/sys/bus/pci/slots/3".toList, "0000:00:1c".toList⟩]
  scan_dir := fun _ => 0
  realpath := fun _ => none
  buf_write := fun _ b => b.length
  errno_after := fun c e =>
    match c with
    | Call.realpath _ => 13
    | _ => e
  unspecified_value := fun _ => 0

/-- An environment in which every write to an attention file is short by one byte. -/
def short_write_env : Env where
  sysfs_get_pci_slots := [⟨"/sys/bus/pci/slots/3".toList, "0000:00:1c".toList⟩]
  scan_dir := fun _ => 0
  realpath := fun _ => some SYSFS_PCIEHP
  buf_write := fun _ b => (b.length : Int) - 1
  errno_after := fun _ e => e
  unspecified_value := fun _ => 0

/-- A slot whose directory path is 4088 bytes long: "/module" still fits behind it
in a PATH_MAX buffer, "/attention" does not. -/
def long_slot : pci_slot :=
  ⟨'/' :: List.replicate 4087 'a', "0000:00:1c".toList⟩

/-- A slot directory path of 4090 bytes: "/module" does not fit behind it in a
PATH_MAX buffer. -/
def longer_path : CStr := '/' :: List.replicate 4089 'a'

/-- An environment in which the one module entry that exists is that of the slot
directory `longer_path`, and it canonicalises to pciehp. -/
def long_module_env : Env where
  sysfs_get_pci_slots := [⟨longer_path, "0000:00:1c".toList⟩]
  scan_dir := fun p => if p = longer_path ++ "/module".toList then 0 else -1
  realpath := fun _ => some SYSFS_PCIEHP
  buf_write := fun _ b => b.length
  errno_after := fun _ e => e
  unspecified_value := fun _ => 0

/-- The drive of the examples: an NVMe drive under the slot "0000:00:1c", whose last
applied intent is `prev`. -/
def sample_drive (prev : Int) : block_device :=
  ⟨"/sys/devices/pci0000:00/0000:00:1c.0/nvme/nvme0".toList, prev⟩

/-! ## Reference definition of the candidate (specification side) -/

/-- The pieces of a string between occurrences of the character `d`, empty ones
included. -/
def pieces (d : Char) : CStr → List CStr
  | [] => [[]]
  | c :: cs =>
    if c = d then [] :: pieces d cs
    else
      match pieces d cs with
      | [] => [[c]]
      | p :: ps => (c :: p) :: ps

/-- The maximal non-empty runs of characters other than `d`, in order. -/
def runs (d : Char) (s : CStr) : List CStr := (pieces d s).filter (fun t => !t.isEmpty)

/-- The run `t i` for the least index `i` such that `t (i + 1)` exists and is "nvme";
none when there is no such index. -/
def before_first_nvme : List CStr → Option CStr
  | t :: u :: rest => if u = "nvme".toList then some t else before_first_nvme (u :: rest)
  | _ => none

/-- Reference definition of `get_slot_from_syspath`, written from the words of the
specification: among the runs of non-"/" characters take the one just before the first
"nvme" that has a predecessor, and return its first run of non-"." characters. -/
def get_slot_reference (path : CStr) : Option CStr :=
  match before_first_nvme (runs '/' path) with
  | none => none
  | some t => (runs '.' t).head?

/-! ## Memory-level model: which memory the code writes

The functions above take the drive and the registry as values. To state that the code
leaves them alone, the functions that touch memory are given once more over an explicit
memory: character buffers addressed by number, the drive record, the slot records, and
the saved pointer of strtok. Here `strtok` overwrites a delimiter in place. -/

/-- The NUL byte that ends a C string. -/
def NUL : Char := Char.ofNat 0

/-- A pointer to a character: the number of a buffer and an offset into it. -/
structure Ptr where
  buf : Nat
  off : Nat
deriving DecidableEq, Repr

/-- A `struct pci_slot` as it lies in memory: its two string pointers. -/
structure pci_slot_rec where
  sysfs_path : Ptr
  address : Ptr
deriving DecidableEq, Repr

/-- A `struct block_device` as it lies in memory: the fields `vmdssd.c` reads. -/
structure block_device_rec where
  sysfs_path : Ptr
  ibpi_prev : Int
deriving DecidableEq, Repr

/-- The memory a call can reach: the character buffers (`heap b` is buffer number `b`,
empty when unused), the number `brk` of the next buffer malloc will hand out, the
drive record `*device`, the slot records of the registry in list order, and the saved
pointer of strtok. -/
structure Mem where
  heap : Nat → List Char
  brk : Nat
  device : block_device_rec
  slots : List pci_slot_rec
  saved : Ptr

/-- The bytes from a pointer to the end of its buffer. -/
def Mem.bytes (m : Mem) (p : Ptr) : List Char := (m.heap p.buf).drop p.off

/-- The C string a pointer points to: the bytes up to the first NUL. -/
def Mem.cstr (m : Mem) (p : Ptr) : CStr := (m.bytes p).takeWhile (fun c => c != NUL)

/-- Store one byte through a pointer. -/
def Mem.poke (m : Mem) (p : Ptr) (c : Char) : Mem :=
  { m with heap := fun b => if b = p.buf then (m.heap b).set p.off c else m.heap b }

/-- Modelled from the spec: `str_dup` (a helper outside `src/`) hands out a copy of
its input, as the tokenising over "an unmodified copy of the input" and
`vmdssd_get_path` have it: a buffer of its own, just allocated, that holds the string
and its NUL. Allocation does not fail. -/
def str_dup_mem (m : Mem) (p : Ptr) : Ptr × Mem :=
  (⟨m.brk, 0⟩,
    { m with
      heap := fun b => if b = m.brk then m.cstr p ++ [NUL] else m.heap b
      brk := m.brk + 1 })

/-- The function free(3) on a pointer that malloc handed out: the buffer is gone. -/
def free_mem (m : Mem) (p : Ptr) : Mem :=
  { m with heap := fun b => if b = p.buf then [] else m.heap b }

/-- The function strtok(3) over memory. It starts at `s`, or at the saved pointer when
`s` is NULL, skips the leading delimiters, and returns NULL when the string ends
there. Else the token starts there; when a delimiter follows the token it is
overwritten by NUL and the saved pointer is set behind it, and when the token runs to
the end of the string the saved pointer is set to that end. -/
def strtok_mem (m : Mem) (s : Option Ptr) (delim : CStr) : Option Ptr × Mem :=
  let p := s.getD m.saved
  let str := m.cstr p
  let k := (str.takeWhile (fun c => delim.contains c)).length
  match str.drop k with
  | [] => (none, { m with saved := ⟨p.buf, p.off + k⟩ })
  | _ :: cs =>
    let n := (cs.takeWhile (fun x => !delim.contains x)).length
    match cs.drop n with
    | [] => (some ⟨p.buf, p.off + k⟩, { m with saved := ⟨p.buf, p.off + k + 1 + n⟩ })
    | _ :: _ =>
      (some ⟨p.buf, p.off + k⟩,
        { m.poke ⟨p.buf, p.off + k + 1 + n⟩ NUL with saved := ⟨p.buf, p.off + k + 1 + n + 1⟩ })

/-- The while loop of `get_slot_from_syspath` over memory. Each round moves the saved
pointer forward in its buffer; `fuel` exceeds the bytes left behind it and is never
used up. -/
def nvme_loop_mem : (fuel : Nat) → (cur : Option Ptr) → (m : Mem) →
    (m.heap m.saved.buf).length - m.saved.off < fuel → Option Ptr × Mem
  | 0, _, _, h => absurd h (Nat.not_lt_zero _)
  | _ + 1, none, m, _ => (none, m)
  | n + 1, some c, m, h =>
    match hs : strtok_mem m none "/".toList with
    | (none, m1) => (none, m1)
    | (some next, m1) =>
      if m1.cstr next = "nvme".toList then (some c, m1)
      else nvme_loop_mem n (some next) m1 (by
        have hlt : m.saved.off < (m.heap m.saved.buf).length := by
          by_contra hge
          have hnil : m.cstr m.saved = [] := by
            unfold Mem.cstr Mem.bytes
            rw [List.drop_eq_nil_of_le (by omega)]
            rfl
          unfold strtok_mem at hs
          simp only [Option.getD_none, hnil, List.takeWhile_nil, List.length_nil,
            List.drop_nil] at hs
          cases hs
        unfold strtok_mem at hs
        simp only [Option.getD_none] at hs
        split at hs
        · cases hs
        · split at hs
          · simp only [Prod.mk.injEq] at hs
            rw [← hs.2]
            simp only
            omega
          · simp only [Prod.mk.injEq] at hs
            rw [← hs.2]
            simp only [Mem.poke, if_true, List.length_set]
            omega)

/-- The tokenising steps of `get_slot_from_syspath` on the copy `temp` of the path:
the first strtok at "/", the while loop, and the strtok at "." on what the loop left in
`cur` (on the saved rest when that is NULL). -/
def tokenise_mem (m : Mem) (temp : Ptr) : Option Ptr × Mem :=
  let first := strtok_mem m (some temp) "/".toList
  let last := nvme_loop_mem ((first.2.heap first.2.saved.buf).length - first.2.saved.off + 1)
    first.1 first.2 (Nat.lt_succ_self _)
  strtok_mem last.2 last.1 ".".toList

/-- The function `get_slot_from_syspath` over memory: the pointer it returns (none:
NULL) and the memory after it. It copies the path, tokenises the copy, copies the
result and frees the first copy. -/
def get_slot_from_syspath_mem (m : Mem) (path : Ptr) : Option Ptr × Mem :=
  let temp := str_dup_mem m path
  let cur := tokenise_mem temp.2 temp.1
  match cur.1 with
  | some c =>
    let ret := str_dup_mem cur.2 c
    (some ret.1, free_mem ret.2 temp.1)
  | none => (none, free_mem cur.2 temp.1)

/-- The `list_for_each` loop of `vmdssd_find_pci_slot` over memory: strcmp reads the
address string of each slot record. -/
def slot_scan_mem (m : Mem) (pci_addr : Ptr) : List pci_slot_rec → Option pci_slot_rec
  | [] => none
  | slot :: rest =>
    if m.cstr slot.address = m.cstr pci_addr then some slot else slot_scan_mem m pci_addr rest

/-- The slot record read out of memory as a value. -/
def Mem.slot_value (m : Mem) (r : pci_slot_rec) : pci_slot :=
  ⟨m.cstr r.sysfs_path, m.cstr r.address⟩

/-- The drive record read out of memory as a value. -/
def Mem.drive_value (m : Mem) : block_device :=
  ⟨m.cstr m.device.sysfs_path, m.device.ibpi_prev⟩

/-- The function `vmdssd_find_pci_slot` over memory: the slot record found (none:
NULL), the state and the memory after it. -/
def vmdssd_find_pci_slot_mem (env : Env) (m : Mem) (device_path : Ptr) (s : Sys) :
    Option pci_slot_rec × Sys × Mem :=
  let g := get_slot_from_syspath_mem m device_path
  match g.1 with
  | none => (none, s, g.2)
  | some pci_addr =>
    let s1 := call env Call.sysfs_get_pci_slots s
    let found := slot_scan_mem g.2 pci_addr g.2.slots
    let m2 := free_mem g.2 pci_addr
    match found with
    | none => (none, s1, m2)
    | some slot =>
      let r := check_slot_module env (m2.cstr slot.sysfs_path) s1
      if r.1 < 0 then (none, r.2, m2) else (some slot, r.2, m2)

/-- The function `vmdssd_write` over memory: the value returned, the state and the
memory after it. -/
def vmdssd_write_mem (D : Decls) (env : Env) (m : Mem) (ibpi : Int) (s : Sys) :
    Int × Sys × Mem :=
  if ibpi = m.device.ibpi_prev then (0, s, m)
  else if ibpi < D.IBPI_PATTERN_NORMAL ∨ ibpi > D.IBPI_PATTERN_LOCATE_OFF then
    ((__set_errno_and_return ERANGE s).1, (__set_errno_and_return ERANGE s).2, m)
  else
    let f := vmdssd_find_pci_slot_mem env m m.device.sysfs_path s
    match f.1 with
    | none =>
      let s2 := call env
        (Call.log_debug "PCI hotplug slot not found for %s\n"
          (short_name (f.2.2.cstr m.device.sysfs_path))) f.2.1
      ((__set_errno_and_return ENODEV s2).1, (__set_errno_and_return ENODEV s2).2, f.2.2)
    | some slot =>
      let r := vmdssd_write_attention_buf D env (f.2.2.slot_value slot) ibpi f.2.1
      (r.1, r.2, f.2.2)

/-- A memory for examples: buffer 0 holds the path of the sample drive, buffers 1 and
2 the directory path and the address of one slot. -/
def sample_mem (prev : Int) : Mem where
  heap := fun b =>
    if b = 0 then "/sys/devices/pci0000:00/0000:00:1c.0/nvme/nvme0".toList ++ [NUL]
    else if b = 1 then "/sys/bus/pci/slots/3".toList ++ [NUL]
    else if b = 2 then "0000:00:1c".toList ++ [NUL]
    else []
  brk := 3
  device := ⟨⟨0, 0⟩, prev⟩
  slots := [⟨⟨1, 0⟩, ⟨2, 0⟩⟩]
  saved := ⟨0, 0⟩

/-- The memory `m1` differs from `m` at most in buffer `t` and in the saved pointer
of strtok. -/
def Mem.same_but (t : Nat) (m m1 : Mem) : Prop :=
  m1.device = m.device ∧ m1.slots = m.slots ∧ m1.brk = m.brk ∧
    ∀ b, b ≠ t → m1.heap b = m.heap b

/-- The memory `m1` has everything that was allocated in `m` as it was: the drive
record, the slot records, and every buffer handed out before. -/
def Mem.keeps (m m1 : Mem) : Prop :=
  m1.device = m.device ∧ m1.slots = m.slots ∧ m.brk ≤ m1.brk ∧
    ∀ b, b < m.brk → m1.heap b = m.heap b

/-- The pointers of the drive record and of the slot records point into allocated
buffers. -/
def Mem.pointers_ok (m : Mem) : Prop :=
  m.device.sysfs_path.buf < m.brk ∧
    ∀ r ∈ m.slots, r.sysfs_path.buf < m.brk ∧ r.address.buf < m.brk

/-! ## Facts about the string helpers -/

theorem slash_contains (c : Char) : "/".toList.contains c = (c == '/') := by
  cases h : (c == '/') <;> simp [List.contains, List.elem, h]

theorem dot_contains (c : Char) : ".".toList.contains c = (c == '.') := by
  cases h : (c == '.') <;> simp [List.contains, List.elem, h]

theorem takeWhile_cons_true (p : Char → Bool) (c : Char) (cs : CStr) (h : p c = true) :
    (c :: cs).takeWhile p = c :: cs.takeWhile p := by
  simp [List.takeWhile, h]

theorem takeWhile_cons_false (p : Char → Bool) (c : Char) (cs : CStr) (h : p c = false) :
    (c :: cs).takeWhile p = [] := by
  simp [List.takeWhile, h]

theorem dropWhile_cons_true (p : Char → Bool) (c : Char) (cs : CStr) (h : p c = true) :
    (c :: cs).dropWhile p = cs.dropWhile p := by
  simp [List.dropWhile, h]

theorem dropWhile_cons_false (p : Char → Bool) (c : Char) (cs : CStr) (h : p c = false) :
    (c :: cs).dropWhile p = c :: cs := by
  simp [List.dropWhile, h]

theorem dropWhile_head_false (p : Char → Bool) (s : CStr) (c : Char) (cs : CStr)
    (h : s.dropWhile p = c :: cs) : p c = false := by
  induction s with
  | nil => simp at h
  | cons x xs ih =>
    cases hx : p x
    · rw [dropWhile_cons_false p x xs hx] at h
      injection h with h1 _
      rw [← h1]; exact hx
    · rw [dropWhile_cons_true p x xs hx] at h
      exact ih h

theorem strtok_none_saved (s delim : CStr) (h : (strtok s delim).1 = none) :
    (strtok s delim).2 = [] := by
  unfold strtok at h ⊢
  cases hd : s.dropWhile (fun c => delim.contains c) with
  | nil => rfl
  | cons c cs => rw [hd] at h; simp at h

theorem segments_split (s : CStr) :
    segments s = s.takeWhile (fun x => !"/".toList.contains x) ::
      (match s.dropWhile (fun x => !"/".toList.contains x) with
        | [] => []
        | _ :: r => segments r) := by
  induction s with
  | nil => simp [segments]
  | cons c cs ih =>
    by_cases hc : c = '/'
    · subst hc
      rw [takeWhile_cons_false _ '/' cs (by decide), dropWhile_cons_false _ '/' cs (by decide)]
      simp [segments]
    · have hp : (!"/".toList.contains c) = true := by
        rw [slash_contains]; simpa using hc
      rw [takeWhile_cons_true _ c cs hp, dropWhile_cons_true _ c cs hp]
      rw [segments, if_neg hc, ih]

theorem tokens_dropWhile (s : CStr) :
    tokens (s.dropWhile (fun c => "/".toList.contains c)) = tokens s := by
  induction s with
  | nil => rfl
  | cons c cs ih =>
    by_cases hc : c = '/'
    · subst hc
      rw [dropWhile_cons_true _ '/' cs (by decide), ih]
      simp [tokens, segments]
    · have hp : ("/".toList.contains c) = false := by
        rw [slash_contains]; simpa using hc
      rw [dropWhile_cons_false _ c cs hp]

theorem tokens_cons_not_slash (c : Char) (cs : CStr) (hc : "/".toList.contains c = false) :
    tokens (c :: cs) = (c :: cs.takeWhile (fun x => !"/".toList.contains x)) ::
      tokens ((cs.dropWhile (fun x => !"/".toList.contains x)).drop 1) := by
  have hp : (!"/".toList.contains c) = true := by rw [hc]; rfl
  have hseg := segments_split (c :: cs)
  rw [takeWhile_cons_true _ c cs hp, dropWhile_cons_true _ c cs hp] at hseg
  unfold tokens
  rw [hseg, List.filter_cons_of_pos (by rfl)]
  cases hr : cs.dropWhile (fun x => !"/".toList.contains x) with
  | nil => rfl
  | cons x rest => rfl

theorem strtok_slash_tokens (s : CStr) :
    (strtok s "/".toList).1 = (tokens s).head? ∧
      tokens (strtok s "/".toList).2 = (tokens s).tail := by
  rw [← tokens_dropWhile s]
  unfold strtok
  cases hd : s.dropWhile (fun c => "/".toList.contains c) with
  | nil => exact ⟨rfl, rfl⟩
  | cons c cs =>
    have hc : ("/".toList.contains c) = false := dropWhile_head_false _ s c cs hd
    rw [tokens_cons_not_slash c cs hc]
    exact ⟨rfl, rfl⟩

theorem nvme_loop_null (fuel : Nat) (saved : CStr) (h : saved.length < fuel) :
    nvme_loop fuel none saved h = (none, saved) := by
  cases fuel with
  | zero => exact absurd h (Nat.not_lt_zero _)
  | succ n => rfl

theorem nvme_loop_no_nvme (fuel : Nat) : ∀ (c saved : CStr) (h : saved.length < fuel),
    "nvme".toList ∉ tokens saved → nvme_loop fuel (some c) saved h = (none, []) := by
  induction fuel with
  | zero => intro c saved h; exact absurd h (Nat.not_lt_zero _)
  | succ n ih =>
    intro c saved h hno
    have ht := strtok_slash_tokens saved
    unfold nvme_loop
    split
    · rename_i saved1 hs
      have h2 := strtok_none_saved saved "/".toList (by rw [hs])
      rw [hs] at h2
      simp only at h2
      rw [h2]
    · rename_i next saved1 hs
      rw [hs] at ht
      simp only at ht
      have hmem : next ∈ tokens saved := List.mem_of_mem_head? ht.1.symm
      have hne : next ≠ "nvme".toList := fun e => hno (e ▸ hmem)
      rw [if_neg hne]
      apply ih
      rw [ht.2]
      exact fun hm => hno (List.mem_of_mem_tail hm)

theorem nvme_loop_first_nvme (fuel : Nat) : ∀ (c saved : CStr) (h : saved.length < fuel)
    (l post : List CStr), tokens saved = l ++ "nvme".toList :: post → "nvme".toList ∉ l →
    (nvme_loop fuel (some c) saved h).1 = some (l.getLastD c) := by
  induction fuel with
  | zero => intro c saved h; exact absurd h (Nat.not_lt_zero _)
  | succ n ih =>
    intro c saved h l post htok hno
    have ht := strtok_slash_tokens saved
    rw [htok] at ht
    unfold nvme_loop
    split
    · rename_i saved1 hs
      rw [hs] at ht
      cases l <;> simp at ht
    · rename_i next saved1 hs
      rw [hs] at ht
      simp only at ht
      cases l with
      | nil =>
        simp only [List.nil_append, List.head?_cons, Option.some.injEq] at ht
        rw [if_pos ht.1]
        rfl
      | cons t l1 =>
        simp only [List.cons_append, List.head?_cons, Option.some.injEq, List.tail_cons] at ht
        have hne : next ≠ "nvme".toList := by
          rw [ht.1]; exact fun e => hno (e ▸ List.mem_cons_self _ _)
        rw [if_neg hne, ih next saved1 _ l1 post ht.2 (fun hm => hno (List.mem_cons_of_mem _ hm))]
        rw [ht.1]
        cases l1 <;> rfl

theorem strtok_dot (S : CStr) :
    (strtok S ".".toList).1 =
      if S.dropWhile (fun c => c == '.') = [] then none
      else some (cut_at_dot (S.dropWhile (fun c => c == '.'))) := by
  have e1 : (fun c => ".".toList.contains c) = (fun c => c == '.') := funext dot_contains
  have e2 : (fun x => !".".toList.contains x) = (fun c => c != '.') := by
    funext x; rw [dot_contains]; rfl
  unfold strtok cut_at_dot
  rw [e1, e2]
  cases hd : S.dropWhile (fun c => c == '.') with
  | nil => rfl
  | cons c cs =>
    have hc : (c == '.') = false := dropWhile_head_false _ S c cs hd
    have hp : (c != '.') = true := by simp [bne, hc]
    rw [takeWhile_cons_true _ c cs hp]
    simp

theorem get_slot_from_syspath_no_nvme (path : CStr) (h : "nvme".toList ∉ (tokens path).tail) :
    get_slot_from_syspath path = none := by
  have ht := strtok_slash_tokens path
  unfold get_slot_from_syspath
  dsimp only
  cases hc : (strtok path "/".toList).1 with
  | none =>
    rw [nvme_loop_null, strtok_none_saved path "/".toList hc]
    rfl
  | some c =>
    rw [nvme_loop_no_nvme _ c _ _ (by rw [ht.2]; exact h)]
    rfl

theorem get_slot_from_syspath_at_first_nvme (path : CStr) (pre post : List CStr) (S : CStr)
    (hseg : tokens path = pre ++ S :: "nvme".toList :: post)
    (hfirst : "nvme".toList ∉ (pre ++ [S]).tail) :
    get_slot_from_syspath path = (strtok S ".".toList).1 := by
  have ht := strtok_slash_tokens path
  rw [hseg] at ht
  unfold get_slot_from_syspath
  dsimp only
  cases pre with
  | nil =>
    simp only [List.nil_append, List.head?_cons, List.tail_cons] at ht
    rw [ht.1, nvme_loop_first_nvme _ S _ _ [] post ht.2 (by simp)]
    rfl
  | cons p pre1 =>
    simp only [List.cons_append, List.head?_cons, List.tail_cons] at ht hfirst
    have h2 : tokens (strtok path "/".toList).2 = (pre1 ++ [S]) ++ "nvme".toList :: post := by
      rw [ht.2]; simp
    have h3 : (pre1 ++ [S]).getLastD p = S := by
      rw [List.getLastD_eq_getLast?]; simp
    rw [ht.1, nvme_loop_first_nvme _ p _ _ (pre1 ++ [S]) post h2 hfirst, h3]

theorem mem_tokens_ne_nil (path t : CStr) (h : t ∈ tokens path) : t ≠ [] := by
  unfold tokens at h
  rw [List.mem_filter] at h
  intro e
  rw [e] at h
  simp at h

theorem mem_segments_of_mem_tokens (path t : CStr) (h : t ∈ tokens path) : t ∈ segments path := by
  unfold tokens at h
  exact (List.mem_filter.mp h).1

/-! ## Claims about `get_slot_from_syspath` -/

/-- C1 (amended). Let the non-empty "/"-delimited segments of the path be
`pre ++ S :: "nvme" :: post`, where this "nvme" is the first one that is not the very
first non-empty segment. Then `get_slot_from_syspath` returns `S` cut just before its
first "." whenever `S` does not begin with "."; in general it returns `S` without its
leading "." characters, cut before the next ".", and NULL when `S` has only dots. -/
theorem get_slot_from_syspath_before_first_nvme (path : CStr) (pre post : List CStr) (S : CStr)
    (hseg : tokens path = pre ++ S :: "nvme".toList :: post)
    (hfirst : "nvme".toList ∉ (pre ++ [S]).tail) :
    (S.head? ≠ some '.' → get_slot_from_syspath path = some (cut_at_dot S)) ∧
    get_slot_from_syspath path =
      (if S.dropWhile (fun c => c == '.') = [] then none
       else some (cut_at_dot (S.dropWhile (fun c => c == '.')))) := by
  have hmain := get_slot_from_syspath_at_first_nvme path pre post S hseg hfirst
  rw [strtok_dot] at hmain
  refine ⟨?_, hmain⟩
  intro hdot
  have hS : S ≠ [] := mem_tokens_ne_nil path S (by rw [hseg]; simp)
  cases S with
  | nil => exact absurd rfl hS
  | cons c cs =>
    have hc : (c == '.') = false := by
      simp only [List.head?_cons, ne_eq, Option.some.injEq] at hdot
      simpa using hdot
    rw [dropWhile_cons_false _ c cs hc] at hmain
    rw [hmain, if_neg (by simp)]

/-- Witness for C1: the path "/sys/devices/0000:00:1c.0/nvme/nvme0". -/
theorem get_slot_from_syspath_before_first_nvme_witness :
    tokens "/sys/devices/0000:00:1c.0/nvme/nvme0".toList =
        ["sys".toList, "devices".toList] ++
          "0000:00:1c.0".toList :: "nvme".toList :: ["nvme0".toList] ∧
    "nvme".toList ∉ (["sys".toList, "devices".toList] ++ ["0000:00:1c.0".toList]).tail ∧
    get_slot_from_syspath "/sys/devices/0000:00:1c.0/nvme/nvme0".toList =
      some "0000:00:1c".toList :=
  ⟨by decide, by decide,
    ((get_slot_from_syspath_before_first_nvme "/sys/devices/0000:00:1c.0/nvme/nvme0".toList
      ["sys".toList, "devices".toList] ["nvme0".toList] "0000:00:1c.0".toList
      (by decide) (by decide)).1 (by decide)).trans (by decide)⟩

/-- Counterexample for C1 as stated, at three paths that have a segment "nvme".
"/nvme/nvme0": the segment before "nvme" is empty, and the result is NULL, not a
candidate. "/sys/.0000:00:1c/nvme/nvme0": the segment before "nvme" begins with ".",
its part before the first "." is empty, and the candidate is "0000:00:1c".
"/a.1/nvme/b.2/nvme": the second "nvme" is preceded by "b.2", and the candidate is
"a". -/
theorem get_slot_from_syspath_counterexample :
    (segments "/nvme/nvme0".toList = [[], "nvme".toList, "nvme0".toList] ∧
      get_slot_from_syspath "/nvme/nvme0".toList = none) ∧
    (segments "/sys/.0000:00:1c/nvme/nvme0".toList =
        [[], "sys".toList, ".0000:00:1c".toList, "nvme".toList, "nvme0".toList] ∧
      cut_at_dot ".0000:00:1c".toList = [] ∧
      get_slot_from_syspath "/sys/.0000:00:1c/nvme/nvme0".toList = some "0000:00:1c".toList) ∧
    (segments "/a.1/nvme/b.2/nvme".toList =
        [[], "a.1".toList, "nvme".toList, "b.2".toList, "nvme".toList] ∧
      cut_at_dot "b.2".toList = "b".toList ∧
      get_slot_from_syspath "/a.1/nvme/b.2/nvme".toList = some "a".toList) := by
  decide

/-- C9. A path none of whose "/"-delimited segments is "nvme" yields no candidate,
and `vmdssd_find_pci_slot` returns NULL for every registry with the state (errno and
trace of outside calls) untouched: no registry scan, no directory probe. -/
theorem no_nvme_segment_not_found (env : Env) (path : CStr) (s : Sys)
    (h : "nvme".toList ∉ segments path) :
    get_slot_from_syspath path = none ∧ vmdssd_find_pci_slot env path s = (none, s) := by
  have h1 : get_slot_from_syspath path = none :=
    get_slot_from_syspath_no_nvme path
      (fun hm => h (mem_segments_of_mem_tokens path _ (List.mem_of_mem_tail hm)))
  refine ⟨h1, ?_⟩
  unfold vmdssd_find_pci_slot
  rw [h1]

/-- Witness for C9: the empty path, a path without "/" and a path of a SATA disk, with
a registry that holds a slot. -/
theorem no_nvme_segment_not_found_witness :
    ("nvme".toList ∉ segments [] ∧ "nvme".toList ∉ segments "sda".toList ∧
      "nvme".toList ∉ segments "/sys/block/sda".toList) ∧
    vmdssd_find_pci_slot
      (sample_env [⟨"/sys/bus/pci/slots/3".toList, "0000:00:1c".toList⟩] (some SYSFS_PCIEHP) 0)
      "/sys/block/sda".toList ⟨0, []⟩ = (none, ⟨0, []⟩) :=
  ⟨by decide, (no_nvme_segment_not_found _ "/sys/block/sda".toList ⟨0, []⟩ (by decide)).2⟩

/-! ## Facts about the slot lookup -/

theorem slot_scan_none (c : CStr) (l : List pci_slot) (h : ∀ x ∈ l, x.address ≠ c) :
    slot_scan c l = none := by
  induction l with
  | nil => rfl
  | cons x xs ih =>
    rw [slot_scan, if_neg (h x (List.mem_cons_self _ _))]
    exact ih (fun y hy => h y (List.mem_cons_of_mem _ hy))

theorem slot_scan_first (c : CStr) (pre : List pci_slot) (slot : pci_slot) (post : List pci_slot)
    (hpre : ∀ x ∈ pre, x.address ≠ c) (hslot : slot.address = c) :
    slot_scan c (pre ++ slot :: post) = some slot := by
  induction pre with
  | nil => rw [List.nil_append, slot_scan, if_pos hslot]
  | cons x xs ih =>
    rw [List.cons_append, slot_scan, if_neg (hpre x (List.mem_cons_self _ _))]
    exact ih (fun y hy => hpre y (List.mem_cons_of_mem _ hy))

theorem slot_scan_cases (c : CStr) (l : List pci_slot) :
    (slot_scan c l = none ∧ ∀ x ∈ l, x.address ≠ c) ∨
    (∃ pre slot post, l = pre ++ slot :: post ∧ (∀ x ∈ pre, x.address ≠ c) ∧
      slot.address = c ∧ slot_scan c l = some slot) := by
  induction l with
  | nil => exact Or.inl ⟨rfl, fun x hx => absurd hx (List.not_mem_nil x)⟩
  | cons x xs ih =>
    by_cases hx : x.address = c
    · refine Or.inr ⟨[], x, xs, rfl, fun y hy => absurd hy (List.not_mem_nil y), hx, ?_⟩
      rw [slot_scan, if_pos hx]
    · rcases ih with ⟨h1, h2⟩ | ⟨pre, slot, post, h1, h2, h3, h4⟩
      · refine Or.inl ⟨?_, ?_⟩
        · rw [slot_scan, if_neg hx]; exact h1
        · intro y hy
          rcases List.mem_cons.mp hy with rfl | hy
          · exact hx
          · exact h2 y hy
      · refine Or.inr ⟨x :: pre, slot, post, by rw [h1]; rfl, ?_, h3, ?_⟩
        · intro y hy
          rcases List.mem_cons.mp hy with rfl | hy
          · exact hx
          · exact h2 y hy
        · rw [slot_scan, if_neg hx]; exact h4

theorem vmdssd_find_pci_slot_null (env : Env) (path : CStr) (s : Sys)
    (hc : get_slot_from_syspath path = none) :
    vmdssd_find_pci_slot env path s = (none, s) := by
  unfold vmdssd_find_pci_slot
  rw [hc]

theorem vmdssd_find_pci_slot_no_match (env : Env) (path c : CStr) (s : Sys)
    (hc : get_slot_from_syspath path = some c)
    (hno : ∀ x ∈ env.sysfs_get_pci_slots, x.address ≠ c) :
    vmdssd_find_pci_slot env path s = (none, call env Call.sysfs_get_pci_slots s) := by
  unfold vmdssd_find_pci_slot
  rw [hc]
  simp only [slot_scan_none c _ hno]

theorem vmdssd_find_pci_slot_match (env : Env) (path c : CStr) (s : Sys)
    (pre : List pci_slot) (slot : pci_slot) (post : List pci_slot)
    (hc : get_slot_from_syspath path = some c)
    (hreg : env.sysfs_get_pci_slots = pre ++ slot :: post)
    (hpre : ∀ x ∈ pre, x.address ≠ c) (hslot : slot.address = c) :
    vmdssd_find_pci_slot env path s =
      (if (check_slot_module env slot.sysfs_path (call env Call.sysfs_get_pci_slots s)).1 < 0
        then none else some slot,
       (check_slot_module env slot.sysfs_path (call env Call.sysfs_get_pci_slots s)).2) := by
  unfold vmdssd_find_pci_slot
  rw [hc]
  simp only [hreg, slot_scan_first c pre slot post hpre hslot]
  split <;> rfl

theorem check_slot_module_cases (env : Env) (slot_path : CStr) (s : Sys) :
    (env.scan_dir (snprintf PATH_MAX (slot_path ++ "/module".toList)) ≠ 0 →
      check_slot_module env slot_path s =
        (-1, ⟨ENOENT, s.trace ++ [Call.scan_dir (snprintf PATH_MAX (slot_path ++ "/module".toList))]⟩)) ∧
    (env.scan_dir (snprintf PATH_MAX (slot_path ++ "/module".toList)) = 0 →
      env.realpath (snprintf PATH_MAX (slot_path ++ "/module".toList)) = none →
      check_slot_module env slot_path s =
        (-1, ⟨env.errno_after (Call.realpath (snprintf PATH_MAX (slot_path ++ "/module".toList)))
            (env.errno_after (Call.scan_dir (snprintf PATH_MAX (slot_path ++ "/module".toList)))
              s.errno),
          s.trace ++ [Call.scan_dir (snprintf PATH_MAX (slot_path ++ "/module".toList)),
            Call.realpath (snprintf PATH_MAX (slot_path ++ "/module".toList))]⟩)) ∧
    (env.scan_dir (snprintf PATH_MAX (slot_path ++ "/module".toList)) = 0 →
      ∀ q, env.realpath (snprintf PATH_MAX (slot_path ++ "/module".toList)) = some q →
      q ≠ SYSFS_PCIEHP →
      check_slot_module env slot_path s =
        (-1, ⟨EINVAL,
          s.trace ++ [Call.scan_dir (snprintf PATH_MAX (slot_path ++ "/module".toList)),
            Call.realpath (snprintf PATH_MAX (slot_path ++ "/module".toList))]⟩)) ∧
    (env.scan_dir (snprintf PATH_MAX (slot_path ++ "/module".toList)) = 0 →
      env.realpath (snprintf PATH_MAX (slot_path ++ "/module".toList)) = some SYSFS_PCIEHP →
      check_slot_module env slot_path s =
        (0, ⟨env.errno_after (Call.realpath (snprintf PATH_MAX (slot_path ++ "/module".toList)))
            (env.errno_after (Call.scan_dir (snprintf PATH_MAX (slot_path ++ "/module".toList)))
              s.errno),
          s.trace ++ [Call.scan_dir (snprintf PATH_MAX (slot_path ++ "/module".toList)),
            Call.realpath (snprintf PATH_MAX (slot_path ++ "/module".toList))]⟩)) := by
  unfold check_slot_module
  dsimp only
  generalize snprintf PATH_MAX (slot_path ++ "/module".toList) = mp
  refine ⟨fun h => ?_, fun h hr => ?_, fun h q hr hq => ?_, fun h hr => ?_⟩
  · rw [if_neg h]; simp [__set_errno_and_return, call]
  · rw [if_pos h, hr]; simp [call]
  · rw [if_pos h, hr]; simp only [if_pos hq]; simp [__set_errno_and_return, call]
  · rw [if_pos h, hr]; simp [call]

/-- C2. When the path yields the candidate `c`: if no registry slot has the address
`c` (equality of the whole strings), `vmdssd_find_pci_slot` returns NULL after the
registry call only; and if `slot` is the first slot in registry order with address
`c`, the result is decided by `check_slot_module` on that slot alone, whatever
follows it in the registry: NULL when it fails, `slot` when it passes, and the only
outside calls are the registry call and those of that one check. -/
theorem vmdssd_find_pci_slot_first_match (env : Env) (path c : CStr) (s : Sys)
    (hc : get_slot_from_syspath path = some c) :
    ((∀ x ∈ env.sysfs_get_pci_slots, x.address ≠ c) →
      vmdssd_find_pci_slot env path s = (none, call env Call.sysfs_get_pci_slots s)) ∧
    (∀ (pre : List pci_slot) (slot : pci_slot) (post : List pci_slot),
      env.sysfs_get_pci_slots = pre ++ slot :: post →
      (∀ x ∈ pre, x.address ≠ c) → slot.address = c →
      vmdssd_find_pci_slot env path s =
        (if (check_slot_module env slot.sysfs_path (call env Call.sysfs_get_pci_slots s)).1 < 0
          then none else some slot,
         (check_slot_module env slot.sysfs_path (call env Call.sysfs_get_pci_slots s)).2)) := by
  exact ⟨vmdssd_find_pci_slot_no_match env path c s hc,
    fun pre slot post hreg hpre hslot =>
      vmdssd_find_pci_slot_match env path c s pre slot post hc hreg hpre hslot⟩

/-- Witness for C2: two slots with the candidate's address, the first one bound to
another driver, the second one to pciehp: the lookup returns NULL. -/
theorem vmdssd_find_pci_slot_first_match_witness :
    get_slot_from_syspath (sample_drive 2).sysfs_path = some "0000:00:1c".toList ∧
    (check_slot_module twin_env "/sys/bus/pci/slots/2".toList ⟨0, []⟩).1 = 0 ∧
    (vmdssd_find_pci_slot twin_env (sample_drive 2).sysfs_path ⟨0, []⟩).1 = none :=
  ⟨by decide, by decide,
    (congrArg Prod.fst
      ((vmdssd_find_pci_slot_first_match twin_env (sample_drive 2).sysfs_path
        "0000:00:1c".toList ⟨0, []⟩ (by decide)).2 []
        ⟨"/sys/bus/pci/slots/1".toList, "0000:00:1c".toList⟩
        [⟨"/sys/bus/pci/slots/2".toList, "0000:00:1c".toList⟩] (by decide) (by decide)
        (by decide))).trans (by decide)⟩

/-- C3. The table maps locate to 0x7, failed-drive to 0xD, rebuild to 0x5 and
locate-off to 0xF; each of the four intents has exactly one row; the exact-match lookup
gives these values whatever it does on other intents, gives distinct values for
distinct covered intents, and the values it gives on covered intents are exactly 0xF,
0x7, 0x5 and 0xD. -/
theorem ibpi_to_attention_lookup (D : Decls) (hD : D.enum_ok) (u : Int → Int) :
    (get_value_for_ibpi u D.IBPI_PATTERN_LOCATE (ibpi_to_attention D) = 0x7 ∧
      get_value_for_ibpi u D.IBPI_PATTERN_FAILED_DRIVE (ibpi_to_attention D) = 0xD ∧
      get_value_for_ibpi u D.IBPI_PATTERN_REBUILD (ibpi_to_attention D) = 0x5 ∧
      get_value_for_ibpi u D.IBPI_PATTERN_LOCATE_OFF (ibpi_to_attention D) = 0xF) ∧
    (∀ i ∈ covered_intents D,
      ((ibpi_to_attention D).filter (fun e => e.ibpi = i)).length = 1) ∧
    (∀ i ∈ covered_intents D, ∀ j ∈ covered_intents D, i ≠ j →
      get_value_for_ibpi u i (ibpi_to_attention D) ≠
        get_value_for_ibpi u j (ibpi_to_attention D)) ∧
    (∀ v : Int, (∃ i ∈ covered_intents D, get_value_for_ibpi u i (ibpi_to_attention D) = v) ↔
      v = 0xF ∨ v = 0x7 ∨ v = 0x5 ∨ v = 0xD) := by
  obtain ⟨h1, h2, h3, h4, h5, h6, h7, h8, h9, h10⟩ := hD
  have a1 : D.IBPI_PATTERN_FAILED_DRIVE ≠ D.IBPI_PATTERN_LOCATE := fun e => h8 e.symm
  have a2 : D.IBPI_PATTERN_REBUILD ≠ D.IBPI_PATTERN_LOCATE := fun e => h9 e.symm
  have a3 : D.IBPI_PATTERN_REBUILD ≠ D.IBPI_PATTERN_FAILED_DRIVE := fun e => h10 e.symm
  have a4 : D.IBPI_PATTERN_LOCATE_OFF ≠ D.IBPI_PATTERN_LOCATE := by omega
  have a5 : D.IBPI_PATTERN_LOCATE_OFF ≠ D.IBPI_PATTERN_FAILED_DRIVE := by omega
  have a6 : D.IBPI_PATTERN_LOCATE_OFF ≠ D.IBPI_PATTERN_REBUILD := by omega
  have a7 : D.IBPI_PATTERN_LOCATE ≠ D.IBPI_PATTERN_LOCATE_OFF := by omega
  have a8 : D.IBPI_PATTERN_FAILED_DRIVE ≠ D.IBPI_PATTERN_LOCATE_OFF := by omega
  have a9 : D.IBPI_PATTERN_REBUILD ≠ D.IBPI_PATTERN_LOCATE_OFF := by omega
  have v1 : get_value_for_ibpi u D.IBPI_PATTERN_LOCATE (ibpi_to_attention D) = 0x7 := by
    simp [get_value_for_ibpi, ibpi_to_attention, ATTENTION_LOCATE]
  have v2 : get_value_for_ibpi u D.IBPI_PATTERN_FAILED_DRIVE (ibpi_to_attention D) = 0xD := by
    simp [get_value_for_ibpi, ibpi_to_attention, ATTENTION_FAILURE, h8]
  have v3 : get_value_for_ibpi u D.IBPI_PATTERN_REBUILD (ibpi_to_attention D) = 0x5 := by
    simp [get_value_for_ibpi, ibpi_to_attention, ATTENTION_REBUILD, h9, h10]
  have v4 : get_value_for_ibpi u D.IBPI_PATTERN_LOCATE_OFF (ibpi_to_attention D) = 0xF := by
    simp [get_value_for_ibpi, ibpi_to_attention, ATTENTION_OFF, a7, a8, a9]
  have hcov : ∀ i, i ∈ covered_intents D ↔ i = D.IBPI_PATTERN_LOCATE ∨
      i = D.IBPI_PATTERN_FAILED_DRIVE ∨ i = D.IBPI_PATTERN_REBUILD ∨
      i = D.IBPI_PATTERN_LOCATE_OFF := by
    intro i; simp [covered_intents, ibpi_to_attention]
  refine ⟨⟨v1, v2, v3, v4⟩, ?_, ?_, ?_⟩
  · intro i hi
    rcases (hcov i).mp hi with rfl | rfl | rfl | rfl <;>
      simp [ibpi_to_attention, List.filter, h8, h9, h10, a1, a2, a3, a4, a5, a6, a7, a8, a9]
  · intro i hi j hj hij
    rcases (hcov i).mp hi with rfl | rfl | rfl | rfl <;>
      rcases (hcov j).mp hj with rfl | rfl | rfl | rfl <;>
      first
        | exact absurd rfl hij
        | (simp only [v1, v2, v3, v4]; decide)
  · intro v
    constructor
    · rintro ⟨i, hi, rfl⟩
      rcases (hcov i).mp hi with rfl | rfl | rfl | rfl
      · rw [v1]; decide
      · rw [v2]; decide
      · rw [v3]; decide
      · rw [v4]; decide
    · rintro (rfl | rfl | rfl | rfl)
      · exact ⟨_, (hcov _).mpr (Or.inr (Or.inr (Or.inr rfl))), v4⟩
      · exact ⟨_, (hcov _).mpr (Or.inl rfl), v1⟩
      · exact ⟨_, (hcov _).mpr (Or.inr (Or.inr (Or.inl rfl))), v3⟩
      · exact ⟨_, (hcov _).mpr (Or.inr (Or.inl rfl)), v2⟩

/-- Witness for C3: the sample declarations satisfy the hypothesis on the
enumeration, and locate looks up to 7 there. -/
theorem ibpi_to_attention_lookup_witness :
    sample_decls.enum_ok ∧
    get_value_for_ibpi (fun _ => 0) 10 (ibpi_to_attention sample_decls) = 0x7 :=
  ⟨by decide, (ibpi_to_attention_lookup sample_decls (by decide) (fun _ => 0)).1.1⟩

/-! ## Facts about the trace of outside calls -/

theorem writes_append (a b : List Call) : writes (a ++ b) = writes a ++ writes b := by
  unfold writes; exact List.filterMap_append _ _ _

theorem reads_append (a b : List Call) : reads (a ++ b) = reads a ++ reads b := by
  unfold reads; exact List.filterMap_append _ _ _

theorem check_slot_module_trace (env : Env) (slot_path : CStr) (s : Sys) :
    ∃ new, (check_slot_module env slot_path s).2.trace = s.trace ++ new ∧
      writes new = [] ∧ reads new = [] := by
  unfold check_slot_module
  dsimp only
  generalize snprintf PATH_MAX (slot_path ++ "/module".toList) = mp
  split
  · split
    · exact ⟨[Call.scan_dir mp, Call.realpath mp], by simp [call], rfl, rfl⟩
    · split
      · exact ⟨[Call.scan_dir mp, Call.realpath mp], by simp [call, __set_errno_and_return],
          rfl, rfl⟩
      · exact ⟨[Call.scan_dir mp, Call.realpath mp], by simp [call], rfl, rfl⟩
  · exact ⟨[Call.scan_dir mp], by simp [call, __set_errno_and_return], rfl, rfl⟩

theorem vmdssd_find_pci_slot_trace (env : Env) (path : CStr) (s : Sys) :
    ∃ new, (vmdssd_find_pci_slot env path s).2.trace = s.trace ++ new ∧
      writes new = [] ∧ reads new = [] := by
  unfold vmdssd_find_pci_slot
  split
  · exact ⟨[], by simp, rfl, rfl⟩
  · dsimp only
    split
    · exact ⟨[Call.sysfs_get_pci_slots], by simp [call], rfl, rfl⟩
    · rename_i slot _
      obtain ⟨new, h1, h2, h3⟩ :=
        check_slot_module_trace env slot.sysfs_path (call env Call.sysfs_get_pci_slots s)
      refine ⟨Call.sysfs_get_pci_slots :: new, ?_, ?_, ?_⟩
      · split <;> (simp only [h1]; simp [call])
      · rw [← List.singleton_append, writes_append, h2]; rfl
      · rw [← List.singleton_append, reads_append, h3]; rfl

theorem attention_val_lt (D : Decls) (env : Env) (ibpi : Int) :
    attention_val D env ibpi < 65536 := by
  unfold attention_val
  have h1 := Int.emod_lt_of_pos
    (get_value_for_ibpi env.unspecified_value ibpi (ibpi_to_attention D))
    (show (0 : Int) < 65536 by decide)
  have h2 := Int.emod_nonneg
    (get_value_for_ibpi env.unspecified_value ibpi (ibpi_to_attention D))
    (show (65536 : Int) ≠ 0 by decide)
  omega

theorem format_u_length (val : Nat) (h : val < 65536) : (format_u val).length ≤ 5 := by
  unfold format_u Nat.toDigits
  exact Nat.toDigitsCore_length 10 (by decide) (val + 1) val 5 (by omega) (by decide)

theorem attention_buf_eq (D : Decls) (env : Env) (ibpi : Int) (hB : D.buffer_ok) :
    attention_buf D env ibpi = format_u (attention_val D env ibpi) ∧
    strnlen (attention_buf D env ibpi) D.WRITE_BUFFER_SIZE =
      (format_u (attention_val D env ibpi)).length := by
  have hl := format_u_length _ (attention_val_lt D env ibpi)
  unfold Decls.buffer_ok at hB
  have h1 : attention_buf D env ibpi = format_u (attention_val D env ibpi) := by
    unfold attention_buf snprintf
    exact List.take_of_length_le (by omega)
  refine ⟨h1, ?_⟩
  rw [h1]
  unfold strnlen
  omega

theorem vmdssd_write_attention_buf_result (D : Decls) (env : Env) (slot : pci_slot) (ibpi : Int)
    (s : Sys) (hB : D.buffer_ok) :
    (vmdssd_write_attention_buf D env slot ibpi s).1 =
      (if env.buf_write (attention_path slot) (format_u (attention_val D env ibpi)) ≠
          ((format_u (attention_val D env ibpi)).length : Int)
        then D.STATUS_FILE_WRITE_ERROR else D.STATUS_SUCCESS) ∧
    ∃ new, (vmdssd_write_attention_buf D env slot ibpi s).2.trace = s.trace ++ new ∧
      writes new = [(attention_path slot, format_u (attention_val D env ibpi))] := by
  obtain ⟨h1, h2⟩ := attention_buf_eq D env ibpi hB
  unfold vmdssd_write_attention_buf
  dsimp only
  rw [h2, h1]
  generalize format_u (attention_val D env ibpi) = payload
  generalize attention_path slot = target
  split
  · exact ⟨rfl, [Call.get_int slot.sysfs_path 0 "attention".toList,
      Call.log_debug "%s before: 0x%x\n" slot.address, Call.buf_write target payload,
      Call.log_error "%s write error: %d\n" slot.sysfs_path], by simp [call], rfl⟩
  · exact ⟨rfl, [Call.get_int slot.sysfs_path 0 "attention".toList,
      Call.log_debug "%s before: 0x%x\n" slot.address, Call.buf_write target payload,
      Call.get_int slot.sysfs_path 0 "attention".toList,
      Call.log_debug "%s after: 0x%x\n" slot.address], by simp [call], rfl⟩

theorem attention_path_fits (slot : pci_slot) (h : slot.sysfs_path.length + 10 < PATH_MAX) :
    attention_path slot = slot.sysfs_path ++ "/attention".toList := by
  unfold attention_path snprintf
  apply List.take_of_length_le
  rw [List.length_append]
  have : "/attention".toList.length = 10 := by decide
  omega

theorem write_skip_eq (D : Decls) (env : Env) (device : block_device) (s : Sys) :
    vmdssd_write D env device device.ibpi_prev s = (0, s) := by
  unfold vmdssd_write
  rw [if_pos rfl]

/-! ## Claims about `vmdssd_write` -/

/-- C4. When the intent equals the drive's last-applied intent, `vmdssd_write`
returns 0 and the state is the one it started from: errno and the trace of outside
calls are unchanged, so no registry scan, no probe or canonicalisation, no diagnostic
read and no write has been made. -/
theorem vmdssd_write_same_intent (D : Decls) (env : Env) (device : block_device) (s : Sys) :
    vmdssd_write D env device device.ibpi_prev s = (0, s) := by
  unfold vmdssd_write
  rw [if_pos rfl]

/-- C5 (amended). When the intent differs from the drive's last-applied intent and
lies outside the range from normal to locate-off, `vmdssd_write` returns -1 with errno
ERANGE, and it has made no outside call. -/
theorem vmdssd_write_out_of_range (D : Decls) (env : Env) (device : block_device) (ibpi : Int)
    (s : Sys) (hne : ibpi ≠ device.ibpi_prev)
    (hout : ibpi < D.IBPI_PATTERN_NORMAL ∨ ibpi > D.IBPI_PATTERN_LOCATE_OFF) :
    vmdssd_write D env device ibpi s = (-1, ⟨ERANGE, s.trace⟩) := by
  unfold vmdssd_write
  rw [if_neg hne, if_pos hout]
  rfl

/-- Witness for C5: intent 0 on a drive whose last-applied intent is 1. -/
theorem vmdssd_write_out_of_range_witness :
    (0 : Int) ≠ (sample_drive 1).ibpi_prev ∧
    ((0 : Int) < sample_decls.IBPI_PATTERN_NORMAL ∨
      (0 : Int) > sample_decls.IBPI_PATTERN_LOCATE_OFF) ∧
    vmdssd_write sample_decls
      (sample_env [⟨"/sys/bus/pci/slots/3".toList, "0000:00:1c".toList⟩] (some SYSFS_PCIEHP) 0)
      (sample_drive 1) 0 ⟨0, []⟩ = (-1, ⟨ERANGE, []⟩) :=
  ⟨by decide, by decide, vmdssd_write_out_of_range _ _ _ _ _ (by decide) (by decide)⟩

/-- Counterexample for C5 as stated: the intent 1 lies below the valid range of the
sample declarations (normal is 2) and is the drive's last-applied intent; the call
returns 0 and leaves errno alone, where the claim has -1 and ERANGE. -/
theorem vmdssd_write_out_of_range_counterexample :
    (1 : Int) < sample_decls.IBPI_PATTERN_NORMAL ∧
    vmdssd_write sample_decls
      (sample_env [⟨"/sys/bus/pci/slots/3".toList, "0000:00:1c".toList⟩] (some SYSFS_PCIEHP) 0)
      (sample_drive 1) 1 ⟨0, []⟩ = (0, ⟨0, []⟩) := by
  decide

theorem vmdssd_write_resolved (D : Decls) (env : Env) (device : block_device) (ibpi : Int)
    (s s1 : Sys) (slot : pci_slot) (hne : ibpi ≠ device.ibpi_prev)
    (hin : ¬(ibpi < D.IBPI_PATTERN_NORMAL ∨ ibpi > D.IBPI_PATTERN_LOCATE_OFF))
    (hf : vmdssd_find_pci_slot env device.sysfs_path s = (some slot, s1)) :
    vmdssd_write D env device ibpi s = vmdssd_write_attention_buf D env slot ibpi s1 := by
  unfold vmdssd_write
  rw [if_neg hne, if_neg hin, hf]

theorem vmdssd_write_unresolved (D : Decls) (env : Env) (device : block_device) (ibpi : Int)
    (s s1 : Sys) (hne : ibpi ≠ device.ibpi_prev)
    (hin : ¬(ibpi < D.IBPI_PATTERN_NORMAL ∨ ibpi > D.IBPI_PATTERN_LOCATE_OFF))
    (hf : vmdssd_find_pci_slot env device.sysfs_path s = (none, s1)) :
    vmdssd_write D env device ibpi s =
      (-1, ⟨ENODEV, s1.trace ++
        [Call.log_debug "PCI hotplug slot not found for %s\n" (short_name device.sysfs_path)]⟩) := by
  unfold vmdssd_write
  rw [if_neg hne, if_neg hin, hf]
  rfl

theorem vmdssd_write_cases (D : Decls) (env : Env) (device : block_device) (ibpi : Int)
    (s : Sys) (hne : ibpi ≠ device.ibpi_prev) :
    ((ibpi < D.IBPI_PATTERN_NORMAL ∨ ibpi > D.IBPI_PATTERN_LOCATE_OFF) ∧
      vmdssd_write D env device ibpi s = (-1, ⟨ERANGE, s.trace⟩)) ∨
    (¬(ibpi < D.IBPI_PATTERN_NORMAL ∨ ibpi > D.IBPI_PATTERN_LOCATE_OFF) ∧
      ∃ s1, vmdssd_find_pci_slot env device.sysfs_path s = (none, s1) ∧
        vmdssd_write D env device ibpi s =
          (-1, ⟨ENODEV, s1.trace ++
            [Call.log_debug "PCI hotplug slot not found for %s\n"
              (short_name device.sysfs_path)]⟩)) ∨
    (¬(ibpi < D.IBPI_PATTERN_NORMAL ∨ ibpi > D.IBPI_PATTERN_LOCATE_OFF) ∧
      ∃ slot s1, vmdssd_find_pci_slot env device.sysfs_path s = (some slot, s1) ∧
        vmdssd_write D env device ibpi s = vmdssd_write_attention_buf D env slot ibpi s1) := by
  by_cases hout : ibpi < D.IBPI_PATTERN_NORMAL ∨ ibpi > D.IBPI_PATTERN_LOCATE_OFF
  · refine Or.inl ⟨hout, ?_⟩
    unfold vmdssd_write
    rw [if_neg hne, if_pos hout]
    rfl
  · cases hf : vmdssd_find_pci_slot env device.sysfs_path s with
    | mk o s1 =>
      cases o with
      | none =>
        exact Or.inr (Or.inl ⟨hout, s1, rfl, vmdssd_write_unresolved D env device ibpi s s1 hne hout hf⟩)
      | some slot =>
        exact Or.inr (Or.inr ⟨hout, slot, s1, rfl,
          vmdssd_write_resolved D env device ibpi s s1 slot hne hout hf⟩)

/-- C6 (amended). With an intent different from the last-applied one: a call that
returns 0 has resolved a slot and has made exactly one write, to `attention_path slot`
with the decimal text of the encoded 16-bit value (no newline) as payload; and when the
slot is resolved and the write reports a byte count other than the payload's length,
the call returns STATUS_FILE_WRITE_ERROR and that write is the only one. The target
`attention_path slot` is "<slot sysfs_path>/attention" cut to PATH_MAX - 1 bytes, and
is that whole string when the slot path is shorter than PATH_MAX - 10 bytes. -/
theorem vmdssd_write_single_write (D : Decls) (env : Env) (device : block_device) (ibpi : Int)
    (s : Sys) (hS : D.status_ok) (hB : D.buffer_ok) (hne : ibpi ≠ device.ibpi_prev) :
    ((vmdssd_write D env device ibpi s).1 = 0 →
      ∃ slot new, (vmdssd_find_pci_slot env device.sysfs_path s).1 = some slot ∧
        (vmdssd_write D env device ibpi s).2.trace = s.trace ++ new ∧
        writes new = [(attention_path slot, format_u (attention_val D env ibpi))] ∧
        attention_path slot = (slot.sysfs_path ++ "/attention".toList).take (PATH_MAX - 1) ∧
        (slot.sysfs_path.length + 10 < PATH_MAX →
          attention_path slot = slot.sysfs_path ++ "/attention".toList)) ∧
    (∀ slot, D.IBPI_PATTERN_NORMAL ≤ ibpi → ibpi ≤ D.IBPI_PATTERN_LOCATE_OFF →
      (vmdssd_find_pci_slot env device.sysfs_path s).1 = some slot →
      env.buf_write (attention_path slot) (format_u (attention_val D env ibpi)) ≠
        ((format_u (attention_val D env ibpi)).length : Int) →
      (vmdssd_write D env device ibpi s).1 = D.STATUS_FILE_WRITE_ERROR ∧
      ∃ new, (vmdssd_write D env device ibpi s).2.trace = s.trace ++ new ∧
        writes new = [(attention_path slot, format_u (attention_val D env ibpi))]) := by
  obtain ⟨hS0, hS1, hS2⟩ := hS
  rcases vmdssd_write_cases D env device ibpi s hne with
    ⟨hout, hw⟩ | ⟨hin, s1, hf, hw⟩ | ⟨hin, slot, s1, hf, hw⟩
  · refine ⟨fun h0 => ?_, fun slot hlo hhi => ?_⟩
    · rw [hw] at h0; exact absurd h0 (show ¬((-1 : Int) = 0) by decide)
    · exfalso; omega
  · refine ⟨fun h0 => ?_, fun slot _ _ hs => ?_⟩
    · rw [hw] at h0; exact absurd h0 (show ¬((-1 : Int) = 0) by decide)
    · rw [hf] at hs; exact absurd hs (by simp)
  · obtain ⟨hr, new, ht, hwr⟩ := vmdssd_write_attention_buf_result D env slot ibpi s1 hB
    obtain ⟨pre, hp, hpw, _⟩ := vmdssd_find_pci_slot_trace env device.sysfs_path s
    rw [hf] at hp
    simp only at hp
    have htr : (vmdssd_write D env device ibpi s).2.trace = s.trace ++ (pre ++ new) := by
      rw [hw, ht, hp, List.append_assoc]
    have hwn : writes (pre ++ new) =
        [(attention_path slot, format_u (attention_val D env ibpi))] := by
      rw [writes_append, hpw, hwr]; rfl
    refine ⟨fun _ => ⟨slot, pre ++ new, by rw [hf], htr, hwn, rfl, attention_path_fits slot⟩,
      fun slot2 _ _ hs hbad => ?_⟩
    rw [hf] at hs
    simp only [Option.some.injEq] at hs
    subst hs
    refine ⟨?_, pre ++ new, htr, hwn⟩
    rw [hw, hr, if_pos hbad]

/-- Witness for C6: locate (10) on the sample drive, last-applied intent normal (2),
in an environment whose writes are all one byte short. -/
theorem vmdssd_write_single_write_witness :
    sample_decls.status_ok ∧ sample_decls.buffer_ok ∧ (10 : Int) ≠ (sample_drive 2).ibpi_prev ∧
    (vmdssd_write sample_decls short_write_env (sample_drive 2) 10 ⟨0, []⟩).1 =
      sample_decls.STATUS_FILE_WRITE_ERROR :=
  ⟨by decide, by decide, by decide,
    ((vmdssd_write_single_write sample_decls short_write_env (sample_drive 2) 10 ⟨0, []⟩
      (by decide) (by decide) (by decide)).2
      ⟨"/sys/bus/pci/slots/3".toList, "0000:00:1c".toList⟩ (by decide) (by decide)
      (by decide) (by decide)).1⟩

theorem long_slot_length : long_slot.sysfs_path.length = 4088 := by
  simp only [long_slot, List.length_cons, List.length_replicate]

theorem attention_path_long_slot :
    attention_path long_slot = long_slot.sysfs_path ++ "/attent".toList := by
  have hl := long_slot_length
  have hn : PATH_MAX - 1 = long_slot.sysfs_path.length + 7 := by
    rw [hl]; rfl
  unfold attention_path snprintf
  rw [hn, List.take_append]
  rfl

/-- Counterexample for C6 as stated: the slot of the drive has a directory path of
4088 bytes. The call returns 0, and its one write goes to the first 4095 bytes of
"<slot sysfs_path>/attention", which end in "/attent". -/
theorem vmdssd_write_single_write_counterexample :
    long_slot.sysfs_path.length = 4088 ∧
    (vmdssd_write sample_decls (sample_env [long_slot] (some SYSFS_PCIEHP) 0)
        (sample_drive 2) 10 ⟨0, []⟩).1 = 0 ∧
    writes (vmdssd_write sample_decls (sample_env [long_slot] (some SYSFS_PCIEHP) 0)
        (sample_drive 2) 10 ⟨0, []⟩).2.trace =
      [(long_slot.sysfs_path ++ "/attent".toList, "7".toList)] ∧
    long_slot.sysfs_path ++ "/attent".toList ≠ long_slot.sysfs_path ++ "/attention".toList := by
  have hc : get_slot_from_syspath (sample_drive 2).sysfs_path = some "0000:00:1c".toList := by
    decide
  have hcheck := (check_slot_module_cases (sample_env [long_slot] (some SYSFS_PCIEHP) 0)
    long_slot.sysfs_path (call (sample_env [long_slot] (some SYSFS_PCIEHP) 0)
      Call.sysfs_get_pci_slots ⟨0, []⟩)).2.2.2 rfl rfl
  have hf := vmdssd_find_pci_slot_match (sample_env [long_slot] (some SYSFS_PCIEHP) 0)
    (sample_drive 2).sysfs_path "0000:00:1c".toList ⟨0, []⟩ [] long_slot [] hc rfl
    (fun x hx => absurd hx (List.not_mem_nil x)) rfl
  rw [hcheck] at hf
  have hw := vmdssd_write_resolved sample_decls (sample_env [long_slot] (some SYSFS_PCIEHP) 0)
    (sample_drive 2) 10 ⟨0, []⟩ _ long_slot (by decide) (by decide) hf
  obtain ⟨hr, new, ht, hwr⟩ := vmdssd_write_attention_buf_result sample_decls
    (sample_env [long_slot] (some SYSFS_PCIEHP) 0) long_slot 10
    ((0, (⟨_, _⟩ : Sys)) : Int × Sys).2 (by decide)
  have hpay : format_u (attention_val sample_decls
      (sample_env [long_slot] (some SYSFS_PCIEHP) 0) 10) = "7".toList := by decide
  refine ⟨long_slot_length, ?_, ?_, ?_⟩
  · rw [hw, hr]
    exact if_neg (fun h => h rfl)
  · rw [hw, ht, writes_append, hwr, hpay, attention_path_long_slot]
    rfl
  · intro h
    exact absurd (List.append_cancel_left h) (by decide)

/-- C8 (amended). `check_slot_module` probes the path `mp`, which is "<slot>/module"
as left in a PATH_MAX buffer (that whole string when the slot path is shorter than
PATH_MAX - 7 bytes). It returns 0 when the entry exists and canonicalises to
"/sys/module/pciehp"; -1 with errno EINVAL when it canonicalises to another path; -1
with errno ENOENT when the entry is absent; and -1 with errno as realpath left it when
the entry exists and cannot be canonicalised. These four are the only outcomes. -/
theorem check_slot_module_outcomes (env : Env) (slot_path : CStr) (s : Sys) :
    (env.scan_dir (snprintf PATH_MAX (slot_path ++ "/module".toList)) = 0 →
      env.realpath (snprintf PATH_MAX (slot_path ++ "/module".toList)) = some SYSFS_PCIEHP →
      (check_slot_module env slot_path s).1 = 0) ∧
    (env.scan_dir (snprintf PATH_MAX (slot_path ++ "/module".toList)) = 0 →
      ∀ q, env.realpath (snprintf PATH_MAX (slot_path ++ "/module".toList)) = some q →
      q ≠ SYSFS_PCIEHP →
      (check_slot_module env slot_path s).1 = -1 ∧
        (check_slot_module env slot_path s).2.errno = EINVAL) ∧
    (env.scan_dir (snprintf PATH_MAX (slot_path ++ "/module".toList)) ≠ 0 →
      (check_slot_module env slot_path s).1 = -1 ∧
        (check_slot_module env slot_path s).2.errno = ENOENT) ∧
    (env.scan_dir (snprintf PATH_MAX (slot_path ++ "/module".toList)) = 0 →
      env.realpath (snprintf PATH_MAX (slot_path ++ "/module".toList)) = none →
      (check_slot_module env slot_path s).1 = -1 ∧
        (check_slot_module env slot_path s).2.errno =
          env.errno_after (Call.realpath (snprintf PATH_MAX (slot_path ++ "/module".toList)))
            (env.errno_after (Call.scan_dir (snprintf PATH_MAX (slot_path ++ "/module".toList)))
              s.errno)) ∧
    ((check_slot_module env slot_path s).1 = 0 ∨
      ((check_slot_module env slot_path s).1 = -1 ∧
        (check_slot_module env slot_path s).2.errno = EINVAL) ∨
      ((check_slot_module env slot_path s).1 = -1 ∧
        (check_slot_module env slot_path s).2.errno = ENOENT) ∨
      ((check_slot_module env slot_path s).1 = -1 ∧
        env.realpath (snprintf PATH_MAX (slot_path ++ "/module".toList)) = none)) ∧
    (slot_path.length + 7 < PATH_MAX →
      snprintf PATH_MAX (slot_path ++ "/module".toList) = slot_path ++ "/module".toList) := by
  obtain ⟨h1, h2, h3, h4⟩ := check_slot_module_cases env slot_path s
  refine ⟨fun hs hr => by rw [h4 hs hr], fun hs q hr hq => by rw [h3 hs q hr hq]; exact ⟨rfl, rfl⟩,
    fun hs => by rw [h1 hs]; exact ⟨rfl, rfl⟩, fun hs hr => by rw [h2 hs hr]; exact ⟨rfl, rfl⟩,
    ?_, ?_⟩
  · by_cases hs : env.scan_dir (snprintf PATH_MAX (slot_path ++ "/module".toList)) = 0
    · cases hr : env.realpath (snprintf PATH_MAX (slot_path ++ "/module".toList)) with
      | none => rw [h2 hs hr]; exact Or.inr (Or.inr (Or.inr ⟨rfl, rfl⟩))
      | some q =>
        by_cases hq : q = SYSFS_PCIEHP
        · subst hq; rw [h4 hs hr]; exact Or.inl rfl
        · rw [h3 hs q hr hq]; exact Or.inr (Or.inl ⟨rfl, rfl⟩)
    · rw [h1 hs]; exact Or.inr (Or.inr (Or.inl ⟨rfl, rfl⟩))
  · intro hfit
    unfold snprintf
    apply List.take_of_length_le
    rw [List.length_append]
    have : "/module".toList.length = 7 := by decide
    omega

theorem longer_path_module_cut :
    snprintf PATH_MAX (longer_path ++ "/module".toList) ≠ longer_path ++ "/module".toList := by
  intro h
  have hl := congrArg List.length h
  simp only [snprintf, PATH_MAX, longer_path, List.length_take, List.length_append,
    List.length_cons, List.length_replicate] at hl
  have h7 : "/module".toList.length = 7 := by decide
  omega

theorem long_module_env_scan_dir (p : CStr) :
    long_module_env.scan_dir p = if p = longer_path ++ "/module".toList then 0 else -1 :=
  rfl

/-- Counterexample for C8 as stated, at two slots. First: the module entry of the slot
exists (scan_dir returns 0) and realpath fails on it with EACCES; `check_slot_module`
returns -1 with errno 13: it is not Ok, and errno is neither EINVAL nor ENOENT.
Second: the slot path has 4090 bytes, its entry "<slot>/module" exists and
canonicalises to pciehp; `check_slot_module` probes the first 4095 bytes of that text
and returns -1 with errno ENOENT. -/
theorem check_slot_module_counterexample :
    (denied_env.scan_dir "/sys/bus/pci/slots/3/module".toList = 0 ∧
      denied_env.realpath "/sys/bus/pci/slots/3/module".toList = none ∧
      check_slot_module denied_env "/sys/bus/pci/slots/3".toList ⟨0, []⟩ =
        (-1, ⟨13, [Call.scan_dir "/sys/bus/pci/slots/3/module".toList,
          Call.realpath "/sys/bus/pci/slots/3/module".toList]⟩) ∧
      (13 : Int) ≠ EINVAL ∧ (13 : Int) ≠ ENOENT) ∧
    (long_module_env.scan_dir (longer_path ++ "/module".toList) = 0 ∧
      long_module_env.realpath (longer_path ++ "/module".toList) = some SYSFS_PCIEHP ∧
      (check_slot_module long_module_env longer_path ⟨0, []⟩).1 = -1 ∧
      (check_slot_module long_module_env longer_path ⟨0, []⟩).2.errno = ENOENT) := by
  have h0 : long_module_env.scan_dir (longer_path ++ "/module".toList) = 0 := by
    rw [long_module_env_scan_dir, if_pos rfl]
  refine ⟨by decide, h0, rfl, ?_⟩
  have hs : long_module_env.scan_dir (snprintf PATH_MAX (longer_path ++ "/module".toList)) ≠ 0 := by
    rw [long_module_env_scan_dir, if_neg longer_path_module_cut]
    decide
  rw [(check_slot_module_cases long_module_env longer_path ⟨0, []⟩).1 hs]
  exact ⟨rfl, rfl⟩

/-- The payloads of `vmdssd_write`: every payload that a call writes is the decimal
text of the 16-bit value the table lookup gives for the intent. For the four intents
that have a row (locate, failed-drive, rebuild, locate-off) it is one of "15", "7",
"5", "13"; for an in-range intent without a row, such as normal, it is whatever the
lookup yields there. -/
theorem vmdssd_write_payloads (D : Decls) (env : Env) (device : block_device) (ibpi : Int)
    (s : Sys) (hB : D.buffer_ok) :
    ∃ new, (vmdssd_write D env device ibpi s).2.trace = s.trace ++ new ∧
      (∀ w ∈ writes new, w.2 = format_u (attention_val D env ibpi)) ∧
      (D.enum_ok → ibpi ∈ covered_intents D → ∀ w ∈ writes new,
        w.2 = "15".toList ∨ w.2 = "7".toList ∨ w.2 = "5".toList ∨ w.2 = "13".toList) := by
  have hcov : D.enum_ok → ibpi ∈ covered_intents D →
      format_u (attention_val D env ibpi) = "15".toList ∨
      format_u (attention_val D env ibpi) = "7".toList ∨
      format_u (attention_val D env ibpi) = "5".toList ∨
      format_u (attention_val D env ibpi) = "13".toList := by
    intro hD hi
    obtain ⟨h1, h2, h3, h4, h5, h6, h7, h8, h9, h10⟩ := hD
    have a7 : D.IBPI_PATTERN_LOCATE ≠ D.IBPI_PATTERN_LOCATE_OFF := by omega
    have a8 : D.IBPI_PATTERN_FAILED_DRIVE ≠ D.IBPI_PATTERN_LOCATE_OFF := by omega
    have a9 : D.IBPI_PATTERN_REBUILD ≠ D.IBPI_PATTERN_LOCATE_OFF := by omega
    simp only [covered_intents, ibpi_to_attention, List.map_cons, List.map_nil, List.mem_cons,
      List.mem_singleton, List.not_mem_nil, or_false] at hi
    unfold attention_val
    rcases hi with rfl | rfl | rfl | rfl
    · right; left
      simp [get_value_for_ibpi, ibpi_to_attention, ATTENTION_LOCATE]; decide
    · right; right; right
      simp [get_value_for_ibpi, ibpi_to_attention, ATTENTION_FAILURE, h8]; decide
    · right; right; left
      simp [get_value_for_ibpi, ibpi_to_attention, ATTENTION_REBUILD, h9, h10]; decide
    · left
      simp [get_value_for_ibpi, ibpi_to_attention, ATTENTION_OFF, a7, a8, a9]; decide
  have hfin : ∀ new, (∀ w ∈ writes new, w.2 = format_u (attention_val D env ibpi)) →
      (D.enum_ok → ibpi ∈ covered_intents D → ∀ w ∈ writes new,
        w.2 = "15".toList ∨ w.2 = "7".toList ∨ w.2 = "5".toList ∨ w.2 = "13".toList) := by
    intro new hall hD hi w hw
    rw [hall w hw]
    exact hcov hD hi
  by_cases heq : ibpi = device.ibpi_prev
  · refine ⟨[], ?_, ?_, ?_⟩
    · subst heq; rw [write_skip_eq]; simp
    · intro w hw; exact absurd hw (List.not_mem_nil w)
    · intro _ _ w hw; exact absurd hw (List.not_mem_nil w)
  · rcases vmdssd_write_cases D env device ibpi s heq with
      ⟨_, hw⟩ | ⟨_, s1, hf, hw⟩ | ⟨_, slot, s1, hf, hw⟩
    · refine ⟨[], by rw [hw]; simp, ?_, ?_⟩
      · intro w hw; exact absurd hw (List.not_mem_nil w)
      · intro _ _ w hw; exact absurd hw (List.not_mem_nil w)
    · obtain ⟨pre, hp, hpw, _⟩ := vmdssd_find_pci_slot_trace env device.sysfs_path s
      rw [hf] at hp
      simp only at hp
      have hnw : writes (pre ++ [Call.log_debug "PCI hotplug slot not found for %s\n"
          (short_name device.sysfs_path)]) = [] := by
        rw [writes_append, hpw]; rfl
      refine ⟨pre ++ [Call.log_debug "PCI hotplug slot not found for %s\n"
        (short_name device.sysfs_path)], by rw [hw, hp, List.append_assoc], ?_, ?_⟩
      · intro w hw; rw [hnw] at hw; exact absurd hw (List.not_mem_nil w)
      · intro _ _ w hw; rw [hnw] at hw; exact absurd hw (List.not_mem_nil w)
    · obtain ⟨_, new, ht, hwr⟩ := vmdssd_write_attention_buf_result D env slot ibpi s1 hB
      obtain ⟨pre, hp, hpw, _⟩ := vmdssd_find_pci_slot_trace env device.sysfs_path s
      rw [hf] at hp
      simp only at hp
      have hwn : writes (pre ++ new) =
          [(attention_path slot, format_u (attention_val D env ibpi))] := by
        rw [writes_append, hpw, hwr]; rfl
      have hall : ∀ w ∈ writes (pre ++ new), w.2 = format_u (attention_val D env ibpi) := by
        intro w hw
        rw [hwn, List.mem_singleton] at hw
        rw [hw]
      exact ⟨pre ++ new, by rw [hw, ht, hp, List.append_assoc], hall, hfin _ hall⟩

/-- The payloads of `vmdssd_write` for locate on the sample drive. -/
theorem vmdssd_write_payloads_witness :
    sample_decls.buffer_ok ∧
    ∃ new, (vmdssd_write sample_decls
        (sample_env [⟨"/sys/bus/pci/slots/3".toList, "0000:00:1c".toList⟩] (some SYSFS_PCIEHP) 0)
        (sample_drive 2) 10 ⟨0, []⟩).2.trace = [] ++ new ∧
      (∀ w ∈ writes new, w.2 = format_u (attention_val sample_decls
        (sample_env [⟨"/sys/bus/pci/slots/3".toList, "0000:00:1c".toList⟩] (some SYSFS_PCIEHP) 0)
        10)) ∧
      (sample_decls.enum_ok → (10 : Int) ∈ covered_intents sample_decls → ∀ w ∈ writes new,
        w.2 = "15".toList ∨ w.2 = "7".toList ∨ w.2 = "5".toList ∨ w.2 = "13".toList) :=
  ⟨by decide, vmdssd_write_payloads sample_decls _ (sample_drive 2) 10 ⟨0, []⟩ (by decide)⟩

/-- For an intent without a row in the table the value written is the one the lookup
yields when no row matches, as the 16-bit store leaves it: the table of `vmdssd.c`
does not decide it. -/
theorem attention_val_no_row (D : Decls) (env : Env) (ibpi : Int)
    (h : ibpi ∉ covered_intents D) :
    attention_val D env ibpi = (env.unspecified_value ibpi % 65536).toNat := by
  simp only [covered_intents, ibpi_to_attention, List.map_cons, List.map_nil, List.mem_cons,
    List.mem_singleton, List.not_mem_nil, or_false, not_or] at h
  obtain ⟨h1, h2, h3, h4⟩ := h
  unfold attention_val
  simp only [get_value_for_ibpi, ibpi_to_attention, if_neg (Ne.symm h1), if_neg (Ne.symm h2),
    if_neg (Ne.symm h3), if_neg (Ne.symm h4)]

/-- The intent normal (2 in the sample declarations) is in the valid range and has no
row in the table, so the payload written for it follows the lookup: with a lookup that
yields 0 where there is no row the call writes "0", which is none of "15", "7", "5",
"13"; with a lookup that yields 15 there the same call writes "15". -/
theorem vmdssd_write_payload_normal :
    sample_decls.IBPI_PATTERN_NORMAL = 2 ∧
    (2 : Int) ∉ covered_intents sample_decls ∧
    writes (vmdssd_write sample_decls
        (sample_env [⟨"/sys/bus/pci/slots/3".toList, "0000:00:1c".toList⟩] (some SYSFS_PCIEHP) 0)
        (sample_drive 1) 2 ⟨0, []⟩).2.trace =
      [("/sys/bus/pci/slots/3/attention".toList, "0".toList)] ∧
    writes (vmdssd_write sample_decls
        (sample_env [⟨"/sys/bus/pci/slots/3".toList, "0000:00:1c".toList⟩] (some SYSFS_PCIEHP) 15)
        (sample_drive 1) 2 ⟨0, []⟩).2.trace =
      [("/sys/bus/pci/slots/3/attention".toList, "15".toList)] := by
  decide

/-! ## Facts about the reference definition -/

theorem pieces_slash (s : CStr) : pieces '/' s = segments s := by
  induction s with
  | nil => rfl
  | cons c cs ih => rw [pieces, segments, ih]

theorem runs_slash (s : CStr) : runs '/' s = tokens s := by
  unfold runs tokens
  rw [pieces_slash]

theorem pieces_split (d : Char) (s : CStr) :
    pieces d s = s.takeWhile (fun x => x != d) ::
      (match s.dropWhile (fun x => x != d) with
        | [] => []
        | _ :: r => pieces d r) := by
  induction s with
  | nil => simp [pieces]
  | cons c cs ih =>
    by_cases hc : c = d
    · subst hc
      rw [takeWhile_cons_false _ c cs (by simp), dropWhile_cons_false _ c cs (by simp)]
      simp [pieces]
    · have hp : (c != d) = true := by simpa using hc
      rw [takeWhile_cons_true _ c cs hp, dropWhile_cons_true _ c cs hp]
      rw [pieces, if_neg hc, ih]

theorem runs_head (d : Char) (s : CStr) :
    (runs d s).head? =
      if s.dropWhile (fun c => c == d) = [] then none
      else some ((s.dropWhile (fun c => c == d)).takeWhile (fun c => c != d)) := by
  induction s with
  | nil => rfl
  | cons c cs ih =>
    by_cases hc : c = d
    · subst hc
      rw [dropWhile_cons_true _ c cs (by simp), ← ih]
      simp [runs, pieces]
    · have hb : (c == d) = false := by simpa using hc
      have hp : (c != d) = true := by simpa using hc
      rw [dropWhile_cons_false _ c cs hb, if_neg (by simp), takeWhile_cons_true _ c cs hp]
      unfold runs
      rw [pieces_split, takeWhile_cons_true _ c cs hp, List.filter_cons_of_pos (by rfl)]
      rfl

theorem strtok_dot_runs (S : CStr) : (strtok S ".".toList).1 = (runs '.' S).head? := by
  rw [strtok_dot, runs_head]
  rfl

theorem before_first_nvme_mem (l : List CStr) (t : CStr) (h : before_first_nvme l = some t) :
    t ∈ l := by
  induction l with
  | nil => simp [before_first_nvme] at h
  | cons a l1 ih =>
    cases l1 with
    | nil => simp [before_first_nvme] at h
    | cons u rest =>
      rw [before_first_nvme] at h
      by_cases hu : u = "nvme".toList
      · rw [if_pos hu] at h
        simp only [Option.some.injEq] at h
        rw [← h]; exact List.mem_cons_self _ _
      · rw [if_neg hu] at h
        exact List.mem_cons_of_mem _ (ih h)

theorem nvme_loop_reference (fuel : Nat) : ∀ (c saved : CStr) (h : saved.length < fuel),
    (nvme_loop fuel (some c) saved h).1 = before_first_nvme (c :: tokens saved) ∧
    ((nvme_loop fuel (some c) saved h).1 = none → (nvme_loop fuel (some c) saved h).2 = []) := by
  induction fuel with
  | zero => intro c saved h; exact absurd h (Nat.not_lt_zero _)
  | succ n ih =>
    intro c saved h
    have ht := strtok_slash_tokens saved
    unfold nvme_loop
    split
    · rename_i saved1 hs
      have h2 := strtok_none_saved saved "/".toList (by rw [hs])
      rw [hs] at h2 ht
      simp only at h2 ht
      have hnil : tokens saved = [] := by
        cases hts : tokens saved with
        | nil => rfl
        | cons a b => rw [hts] at ht; simp at ht
      rw [hnil, h2]
      exact ⟨rfl, fun _ => rfl⟩
    · rename_i next saved1 hs
      rw [hs] at ht
      simp only at ht
      cases hts : tokens saved with
      | nil => rw [hts] at ht; simp at ht
      | cons a b =>
        rw [hts] at ht
        simp only [List.head?_cons, Option.some.injEq, List.tail_cons] at ht
        obtain ⟨ha, hb⟩ := ht
        subst ha
        rw [before_first_nvme]
        by_cases hn : next = "nvme".toList
        · rw [if_pos hn, if_pos hn]
          exact ⟨rfl, fun hx => by simp at hx⟩
        · rw [if_neg hn, if_neg hn, ← hb]
          exact ih next saved1 _

theorem get_slot_from_syspath_eq_reference (path : CStr) :
    get_slot_from_syspath path = get_slot_reference path := by
  have ht := strtok_slash_tokens path
  unfold get_slot_from_syspath get_slot_reference
  dsimp only
  rw [runs_slash]
  cases hc : (strtok path "/".toList).1 with
  | none =>
    rw [hc] at ht
    have hnil : tokens path = [] := by
      cases hts : tokens path with
      | nil => rfl
      | cons a b => rw [hts] at ht; simp at ht
    rw [nvme_loop_null, strtok_none_saved path "/".toList hc, hnil]
    rfl
  | some c =>
    rw [hc] at ht
    cases hts : tokens path with
    | nil => rw [hts] at ht; simp at ht
    | cons a b =>
      rw [hts] at ht
      simp only [List.head?_cons, Option.some.injEq, List.tail_cons] at ht
      obtain ⟨ha, hb⟩ := ht
      subst ha
      obtain ⟨h1, h2⟩ := nvme_loop_reference _ c (strtok path "/".toList).2 (Nat.lt_succ_self _)
      rw [hb] at h1
      cases hl : before_first_nvme (c :: b) with
      | none =>
        rw [hl] at h1
        rw [h1, h2 h1]
        rfl
      | some S =>
        rw [hl] at h1
        rw [h1]
        exact strtok_dot_runs S

theorem get_slot_from_syspath_tokens (path : CStr) :
    get_slot_from_syspath path =
      match before_first_nvme (tokens path) with
      | none => none
      | some t => (strtok t ".".toList).1 := by
  rw [get_slot_from_syspath_eq_reference]
  unfold get_slot_reference
  rw [runs_slash]
  cases before_first_nvme (tokens path) with
  | none => rfl
  | some t => exact (strtok_dot_runs t).symm

theorem segments_ne_nil (s : CStr) : segments s ≠ [] := by
  cases s with
  | nil => simp [segments]
  | cons c cs =>
    rw [segments]
    split
    · simp
    · split <;> simp

theorem segments_no_slash (s : CStr) : ∀ t ∈ segments s, '/' ∉ t := by
  induction s with
  | nil =>
    intro t ht
    simp only [segments, List.mem_singleton] at ht
    rw [ht]; exact List.not_mem_nil _
  | cons c cs ih =>
    intro t ht
    rw [segments] at ht
    by_cases hc : c = '/'
    · rw [if_pos hc] at ht
      rcases List.mem_cons.mp ht with rfl | h
      · exact List.not_mem_nil _
      · exact ih t h
    · rw [if_neg hc] at ht
      cases hs : segments cs with
      | nil => exact absurd hs (segments_ne_nil cs)
      | cons seg rest =>
        rw [hs] at ht ih
        rcases List.mem_cons.mp ht with rfl | h
        · intro hm
          rcases List.mem_cons.mp hm with e | hm
          · exact hc e.symm
          · exact ih seg (List.mem_cons_self _ _) hm
        · exact ih t (List.mem_cons_of_mem _ h)

theorem segments_append_slash (a b : CStr) :
    segments (a ++ '/' :: b) = segments a ++ segments b := by
  induction a with
  | nil => rfl
  | cons c cs ih =>
    rw [List.cons_append, segments, segments, ih]
    by_cases hc : c = '/'
    · rw [if_pos hc, if_pos hc]; rfl
    · rw [if_neg hc, if_neg hc]
      cases hs : segments cs with
      | nil => exact absurd hs (segments_ne_nil cs)
      | cons seg rest => rfl

theorem tokens_append_slash (a b : CStr) : tokens (a ++ '/' :: b) = tokens a ++ tokens b := by
  unfold tokens
  rw [segments_append_slash, List.filter_append]

theorem tokens_nil : tokens [] = [] := rfl

theorem get_slot_from_syspath_same_tokens (p q : CStr) (h : tokens p = tokens q) :
    get_slot_from_syspath p = get_slot_from_syspath q := by
  rw [get_slot_from_syspath_tokens, get_slot_from_syspath_tokens, h]

theorem candidate_shape (path c : CStr) (h : get_slot_from_syspath path = some c) :
    c ≠ [] ∧ '/' ∉ c ∧ '.' ∉ c := by
  rw [get_slot_from_syspath_tokens] at h
  cases hb : before_first_nvme (tokens path) with
  | none => rw [hb] at h; simp at h
  | some S =>
    rw [hb] at h
    simp only at h
    rw [strtok_dot] at h
    have hS : '/' ∉ S :=
      segments_no_slash path S
        (mem_segments_of_mem_tokens path S (before_first_nvme_mem _ S hb))
    cases hd : S.dropWhile (fun c => c == '.') with
    | nil => rw [hd] at h; simp at h
    | cons x xs =>
      rw [hd, if_neg (by simp)] at h
      simp only [Option.some.injEq] at h
      have hx : (x == '.') = false := dropWhile_head_false _ S x xs hd
      have hp : (x != '.') = true := by simp [bne, hx]
      have hsub : ∀ a, a ∈ c → a ∈ S := by
        intro a ha
        rw [← h] at ha
        unfold cut_at_dot at ha
        have h1 := (List.takeWhile_sublist (fun c => c != '.')).subset ha
        rw [← hd] at h1
        exact (List.dropWhile_sublist (fun c => c == '.')).subset h1
      refine ⟨?_, fun hm => hS (hsub _ hm), ?_⟩
      · rw [← h]
        unfold cut_at_dot
        rw [takeWhile_cons_true _ x xs hp]
        simp
      · intro hm
        rw [← h] at hm
        unfold cut_at_dot at hm
        have := List.mem_takeWhile_imp hm
        simp at this

theorem check_slot_module_value (env : Env) (slot_path : CStr) (s : Sys) :
    (check_slot_module env slot_path s).1 = 0 ∨ (check_slot_module env slot_path s).1 = -1 := by
  obtain ⟨h1, h2, h3, h4⟩ := check_slot_module_cases env slot_path s
  by_cases hs : env.scan_dir (snprintf PATH_MAX (slot_path ++ "/module".toList)) = 0
  · cases hr : env.realpath (snprintf PATH_MAX (slot_path ++ "/module".toList)) with
    | none => rw [h2 hs hr]; exact Or.inr rfl
    | some q =>
      by_cases hq : q = SYSFS_PCIEHP
      · subst hq; rw [h4 hs hr]; exact Or.inl rfl
      · rw [h3 hs q hr hq]; exact Or.inr rfl
  · rw [h1 hs]; exact Or.inr rfl

theorem vmdssd_find_pci_slot_some (env : Env) (path : CStr) (s : Sys) (slot : pci_slot)
    (h : (vmdssd_find_pci_slot env path s).1 = some slot) :
    ∃ c pre post, get_slot_from_syspath path = some c ∧
      env.sysfs_get_pci_slots = pre ++ slot :: post ∧ (∀ x ∈ pre, x.address ≠ c) ∧
      slot.address = c ∧
      (check_slot_module env slot.sysfs_path (call env Call.sysfs_get_pci_slots s)).1 = 0 := by
  cases hc : get_slot_from_syspath path with
  | none =>
    rw [vmdssd_find_pci_slot_null env path s hc] at h
    simp at h
  | some c =>
    rcases slot_scan_cases c env.sysfs_get_pci_slots with
      ⟨_, hno⟩ | ⟨pre, slot2, post, hreg, hpre, hslot, _⟩
    · rw [vmdssd_find_pci_slot_no_match env path c s hc hno] at h
      simp at h
    · rw [vmdssd_find_pci_slot_match env path c s pre slot2 post hc hreg hpre hslot] at h
      simp only at h
      by_cases hlt : (check_slot_module env slot2.sysfs_path
          (call env Call.sysfs_get_pci_slots s)).1 < 0
      · rw [if_pos hlt] at h; simp at h
      · rw [if_neg hlt] at h
        simp only [Option.some.injEq] at h
        subst h
        refine ⟨c, pre, post, rfl, hreg, hpre, hslot, ?_⟩
        rcases check_slot_module_value env slot2.sysfs_path
          (call env Call.sysfs_get_pci_slots s) with h0 | h1
        · exact h0
        · rw [h1] at hlt; exact absurd (show ((-1 : Int) < 0) by decide) hlt

/-! ## Claims about the shape of the candidate -/

/-- C13 (amended). When the "/"-delimited segments of the path are
`pre ++ "0000:01:00.0" :: "nvme" :: post` and no segment of `pre` is "nvme", the
candidate that `get_slot_from_syspath` extracts is "0000:01:00": the segment cut just
before its first ".". -/
theorem get_slot_from_syspath_function_cut (path : CStr) (pre post : List CStr)
    (hseg : segments path = pre ++ "0000:01:00.0".toList :: "nvme".toList :: post)
    (hfirst : "nvme".toList ∉ pre) :
    get_slot_from_syspath path = some "0000:01:00".toList := by
  have htok : tokens path = pre.filter (fun t => !t.isEmpty) ++
      "0000:01:00.0".toList :: "nvme".toList :: post.filter (fun t => !t.isEmpty) := by
    unfold tokens
    rw [hseg, List.filter_append, List.filter_cons_of_pos (by decide),
      List.filter_cons_of_pos (by decide)]
  have hno : "nvme".toList ∉
      (pre.filter (fun t => !t.isEmpty) ++ ["0000:01:00.0".toList]).tail := by
    intro hm
    rcases List.mem_append.mp (List.mem_of_mem_tail hm) with h | h
    · exact hfirst (List.mem_filter.mp h).1
    · exact absurd (List.mem_singleton.mp h) (by decide)
  rw [get_slot_from_syspath_at_first_nvme path _ _ _ htok hno]
  decide

/-- Witness for C13: the path of the namespace nvme3n1 under the device
"0000:01:00.0". -/
theorem get_slot_from_syspath_function_cut_witness :
    segments "/sys/devices/pci0000:00/0000:00:01.0/0000:01:00.0/nvme/nvme3/nvme3n1".toList =
      [[], "sys".toList, "devices".toList, "pci0000:00".toList, "0000:00:01.0".toList] ++
        "0000:01:00.0".toList :: "nvme".toList :: ["nvme3".toList, "nvme3n1".toList] ∧
    "nvme".toList ∉
      [[], "sys".toList, "devices".toList, "pci0000:00".toList, "0000:00:01.0".toList] ∧
    get_slot_from_syspath
        "/sys/devices/pci0000:00/0000:00:01.0/0000:01:00.0/nvme/nvme3/nvme3n1".toList =
      some "0000:01:00".toList :=
  ⟨by decide, by decide,
    get_slot_from_syspath_function_cut _
      [[], "sys".toList, "devices".toList, "pci0000:00".toList, "0000:00:01.0".toList]
      ["nvme3".toList, "nvme3n1".toList] (by decide) (by decide)⟩

/-- Counterexample for C13 as stated: for the path
"/sys/devices/pci0000:00/0000:00:01.0/0000:01:00.0/nvme/nvme3/nvme3n1" the segment
before the first "nvme" is "0000:01:00.0", and the candidate is "0000:01:00", not
"0000:01:00.0". -/
theorem get_slot_from_syspath_function_cut_counterexample :
    segments "/sys/devices/pci0000:00/0000:00:01.0/0000:01:00.0/nvme/nvme3/nvme3n1".toList =
      [[], "sys".toList, "devices".toList, "pci0000:00".toList, "0000:00:01.0".toList,
        "0000:01:00.0".toList, "nvme".toList, "nvme3".toList, "nvme3n1".toList] ∧
    get_slot_from_syspath
        "/sys/devices/pci0000:00/0000:00:01.0/0000:01:00.0/nvme/nvme3/nvme3n1".toList =
      some "0000:01:00".toList ∧
    get_slot_from_syspath
        "/sys/devices/pci0000:00/0000:00:01.0/0000:01:00.0/nvme/nvme3/nvme3n1".toList ≠
      some "0000:01:00.0".toList := by
  decide

/-- C15. For every path `get_slot_from_syspath` returns what the reference definition
returns: with the maximal non-empty runs of non-"/" characters `t 0, t 1, ...`, and
`i` least such that `t (i + 1)` is "nvme", the first maximal non-empty run of non-"."
characters of `t i`; NULL when there is no such `i` or `t i` has only dots. -/
theorem get_slot_from_syspath_refines (path : CStr) :
    get_slot_from_syspath path = get_slot_reference path := by
  rw [get_slot_from_syspath_tokens]
  unfold get_slot_reference
  rw [runs_slash]
  cases before_first_nvme (tokens path) with
  | none => rfl
  | some t => exact strtok_dot_runs t

/-- C16. Every candidate that `get_slot_from_syspath` returns is non-empty and has
neither "/" nor "." in it; and every slot that `vmdssd_find_pci_slot` returns has such
an address, so a slot whose address is empty or contains "." or "/" is never
returned. -/
theorem candidate_without_delimiters :
    (∀ (path c : CStr), get_slot_from_syspath path = some c →
      c ≠ [] ∧ '/' ∉ c ∧ '.' ∉ c) ∧
    (∀ (env : Env) (path : CStr) (s : Sys) (slot : pci_slot),
      (vmdssd_find_pci_slot env path s).1 = some slot →
      slot.address ≠ [] ∧ '/' ∉ slot.address ∧ '.' ∉ slot.address) := by
  refine ⟨candidate_shape, ?_⟩
  intro env path s slot h
  obtain ⟨c, _, _, hc, _, _, hslot, _⟩ := vmdssd_find_pci_slot_some env path s slot h
  rw [hslot]
  exact candidate_shape path c hc

/-- Witness for C16: the sample drive and a registry with the slot "0000:00:1c". -/
theorem candidate_without_delimiters_witness :
    get_slot_from_syspath (sample_drive 2).sysfs_path = some "0000:00:1c".toList ∧
    ("0000:00:1c".toList ≠ [] ∧ '/' ∉ "0000:00:1c".toList ∧ '.' ∉ "0000:00:1c".toList) :=
  ⟨by decide, candidate_without_delimiters.1 (sample_drive 2).sysfs_path _ (by decide)⟩

/-- C17. `get_slot_from_syspath` does not change when a "/" is put in front of the
path, behind it, or next to a "/" that is already there (and so not when one is taken
away there); more generally, two paths with the same non-empty segments give the same
result. "a//nvme" and "/a/nvme/" give the candidate "a" of "a/nvme". -/
theorem get_slot_from_syspath_slash_normalisation :
    (∀ p : CStr, get_slot_from_syspath ('/' :: p) = get_slot_from_syspath p) ∧
    (∀ p : CStr, get_slot_from_syspath (p ++ ['/']) = get_slot_from_syspath p) ∧
    (∀ a b : CStr,
      get_slot_from_syspath (a ++ '/' :: '/' :: b) = get_slot_from_syspath (a ++ '/' :: b)) ∧
    (∀ p q : CStr, tokens p = tokens q → get_slot_from_syspath p = get_slot_from_syspath q) ∧
    get_slot_from_syspath "a//nvme".toList = get_slot_from_syspath "a/nvme".toList ∧
    get_slot_from_syspath "/a/nvme/".toList = get_slot_from_syspath "a/nvme".toList ∧
    get_slot_from_syspath "a/nvme".toList = some "a".toList := by
  refine ⟨fun p => ?_, fun p => ?_, fun a b => ?_, get_slot_from_syspath_same_tokens,
    by decide, by decide, by decide⟩
  · apply get_slot_from_syspath_same_tokens
    have := tokens_append_slash [] p
    simpa [tokens_nil] using this
  · apply get_slot_from_syspath_same_tokens
    rw [tokens_append_slash, tokens_nil, List.append_nil]
  · apply get_slot_from_syspath_same_tokens
    have h1 := tokens_append_slash a ('/' :: b)
    have h2 := tokens_append_slash [] b
    rw [tokens_append_slash a b, h1]
    congr 1

/-! ## Claims about the write path -/

theorem vmdssd_write_attention_buf_writes (D : Decls) (env : Env) (slot : pci_slot) (ibpi : Int)
    (s : Sys) :
    ∃ new, (vmdssd_write_attention_buf D env slot ibpi s).2.trace = s.trace ++ new ∧
      writes new = [(attention_path slot, attention_buf D env ibpi)] := by
  unfold vmdssd_write_attention_buf
  dsimp only
  generalize attention_buf D env ibpi = payload
  generalize attention_path slot = target
  split
  · exact ⟨[Call.get_int slot.sysfs_path 0 "attention".toList,
      Call.log_debug "%s before: 0x%x\n" slot.address, Call.buf_write target payload,
      Call.log_error "%s write error: %d\n" slot.sysfs_path], by simp [call], rfl⟩
  · exact ⟨[Call.get_int slot.sysfs_path 0 "attention".toList,
      Call.log_debug "%s before: 0x%x\n" slot.address, Call.buf_write target payload,
      Call.get_int slot.sysfs_path 0 "attention".toList,
      Call.log_debug "%s after: 0x%x\n" slot.address], by simp [call], rfl⟩

theorem module_path_fits (slot_path : CStr) (h : slot_path.length + 7 < PATH_MAX) :
    snprintf PATH_MAX (slot_path ++ "/module".toList) = slot_path ++ "/module".toList := by
  unfold snprintf
  apply List.take_of_length_le
  rw [List.length_append]
  have : "/module".toList.length = 7 := by decide
  omega

theorem attention_val_locate (D : Decls) (env : Env) :
    format_u (attention_val D env D.IBPI_PATTERN_LOCATE) = "7".toList := by
  have hv : get_value_for_ibpi env.unspecified_value D.IBPI_PATTERN_LOCATE
      (ibpi_to_attention D) = 7 := by
    simp [get_value_for_ibpi, ibpi_to_attention, ATTENTION_LOCATE]
  unfold attention_val
  rw [hv]
  decide

/-- C11. The writes that a call of `vmdssd_write` issues: each of them goes to
`attention_path slot` of the slot that `vmdssd_find_pci_slot` returned for the drive's
path; that slot is a registry slot, the first whose address equals the candidate
extracted from the path, and `check_slot_module` returned 0 for it; and the intent
lies in the range from normal to locate-off and differs from the drive's last-applied
intent. So no write is issued for a slot that has not passed the ownership check. -/
theorem vmdssd_write_only_validated (D : Decls) (env : Env) (device : block_device)
    (ibpi : Int) (s : Sys) :
    ∃ new, (vmdssd_write D env device ibpi s).2.trace = s.trace ++ new ∧
      ∀ w ∈ writes new, ∃ (c : CStr) (slot : pci_slot) (pre post : List pci_slot),
        get_slot_from_syspath device.sysfs_path = some c ∧
        (vmdssd_find_pci_slot env device.sysfs_path s).1 = some slot ∧
        env.sysfs_get_pci_slots = pre ++ slot :: post ∧
        (∀ x ∈ pre, x.address ≠ c) ∧ slot.address = c ∧
        (check_slot_module env slot.sysfs_path (call env Call.sysfs_get_pci_slots s)).1 = 0 ∧
        w.1 = attention_path slot ∧
        D.IBPI_PATTERN_NORMAL ≤ ibpi ∧ ibpi ≤ D.IBPI_PATTERN_LOCATE_OFF ∧
        ibpi ≠ device.ibpi_prev := by
  by_cases heq : ibpi = device.ibpi_prev
  · refine ⟨[], ?_, fun w hw => absurd hw (List.not_mem_nil w)⟩
    subst heq
    rw [write_skip_eq]; simp
  · rcases vmdssd_write_cases D env device ibpi s heq with
      ⟨_, hw⟩ | ⟨_, s1, hf, hw⟩ | ⟨hin, slot, s1, hf, hw⟩
    · exact ⟨[], by rw [hw]; simp, fun w hw => absurd hw (List.not_mem_nil w)⟩
    · obtain ⟨pre, hp, hpw, _⟩ := vmdssd_find_pci_slot_trace env device.sysfs_path s
      rw [hf] at hp
      simp only at hp
      have hnw : writes (pre ++ [Call.log_debug "PCI hotplug slot not found for %s\n"
          (short_name device.sysfs_path)]) = [] := by
        rw [writes_append, hpw]; rfl
      refine ⟨pre ++ [Call.log_debug "PCI hotplug slot not found for %s\n"
        (short_name device.sysfs_path)], by rw [hw, hp, List.append_assoc], ?_⟩
      intro w hw
      rw [hnw] at hw
      exact absurd hw (List.not_mem_nil w)
    · obtain ⟨new, ht, hwr⟩ := vmdssd_write_attention_buf_writes D env slot ibpi s1
      obtain ⟨tr, hp, hpw, _⟩ := vmdssd_find_pci_slot_trace env device.sysfs_path s
      rw [hf] at hp
      simp only at hp
      have hwn : writes (tr ++ new) = [(attention_path slot, attention_buf D env ibpi)] := by
        rw [writes_append, hpw, hwr]; rfl
      obtain ⟨c, pre, post, hc, hreg, hpre, hslot, hok⟩ :=
        vmdssd_find_pci_slot_some env device.sysfs_path s slot (by rw [hf])
      refine ⟨tr ++ new, by rw [hw, ht, hp, List.append_assoc], ?_⟩
      intro w hmem
      rw [hwn, List.mem_singleton] at hmem
      refine ⟨c, slot, pre, post, hc, by rw [hf], hreg, hpre, hslot, hok, by rw [hmem], ?_, ?_,
        heq⟩ <;> omega

/-- C12 (amended). End to end: the drive's path is "/sys" followed by segments without
"nvme" and then "/0000:00:1c.0/nvme/nvme0", its last-applied intent is not locate; the
first registry slot with the address "0000:00:1c" has a directory path shorter than
PATH_MAX - 10 bytes, its module entry exists and canonicalises to
"/sys/module/pciehp", and the write of "7" to its attention file reports one byte.
Then `vmdssd_write` with intent locate returns 0 and issues exactly one write, of the
payload "7" to "<slot sysfs_path>/attention". -/
theorem vmdssd_write_end_to_end (D : Decls) (env : Env) (device : block_device) (s : Sys)
    (mid : List CStr) (pre : List pci_slot) (slot : pci_slot) (post : List pci_slot)
    (hE : D.enum_ok) (hS : D.status_ok) (hB : D.buffer_ok)
    (hpath : segments device.sysfs_path = [] :: "sys".toList :: mid ++
      ["0000:00:1c.0".toList, "nvme".toList, "nvme0".toList])
    (hmid : "nvme".toList ∉ mid)
    (hprev : device.ibpi_prev ≠ D.IBPI_PATTERN_LOCATE)
    (hreg : env.sysfs_get_pci_slots = pre ++ slot :: post)
    (hpre : ∀ x ∈ pre, x.address ≠ "0000:00:1c".toList)
    (hslot : slot.address = "0000:00:1c".toList)
    (hfit : slot.sysfs_path.length + 10 < PATH_MAX)
    (hscan : env.scan_dir (slot.sysfs_path ++ "/module".toList) = 0)
    (hreal : env.realpath (slot.sysfs_path ++ "/module".toList) = some SYSFS_PCIEHP)
    (hwrite : env.buf_write (slot.sysfs_path ++ "/attention".toList) "7".toList = 1) :
    (vmdssd_write D env device D.IBPI_PATTERN_LOCATE s).1 = 0 ∧
    ∃ new, (vmdssd_write D env device D.IBPI_PATTERN_LOCATE s).2.trace = s.trace ++ new ∧
      writes new = [(slot.sysfs_path ++ "/attention".toList, "7".toList)] := by
  obtain ⟨hS0, _, _⟩ := hS
  obtain ⟨_, _, h3, _, _, _, h7, _, _, _⟩ := hE
  have htok : tokens device.sysfs_path =
      ("sys".toList :: mid.filter (fun t => !t.isEmpty)) ++
        "0000:00:1c.0".toList :: "nvme".toList :: ["nvme0".toList] := by
    unfold tokens
    rw [hpath, List.cons_append, List.cons_append, List.filter_cons_of_neg (by decide),
      List.filter_cons_of_pos (by decide), List.filter_append]
    rfl
  have hno : "nvme".toList ∉
      (("sys".toList :: mid.filter (fun t => !t.isEmpty)) ++ ["0000:00:1c.0".toList]).tail := by
    intro hm
    rw [List.cons_append, List.tail_cons] at hm
    rcases List.mem_append.mp hm with h | h
    · exact hmid (List.mem_filter.mp h).1
    · exact absurd (List.mem_singleton.mp h) (by decide)
  have hc : get_slot_from_syspath device.sysfs_path = some "0000:00:1c".toList := by
    rw [get_slot_from_syspath_at_first_nvme device.sysfs_path _ _ _ htok hno]
    decide
  have hmp := module_path_fits slot.sysfs_path (by omega)
  have hcheck := (check_slot_module_cases env slot.sysfs_path
    (call env Call.sysfs_get_pci_slots s)).2.2.2 (by rw [hmp]; exact hscan)
    (by rw [hmp]; exact hreal)
  have hf := vmdssd_find_pci_slot_match env device.sysfs_path _ s pre slot post hc hreg hpre
    hslot
  rw [hcheck] at hf
  have hin : ¬(D.IBPI_PATTERN_LOCATE < D.IBPI_PATTERN_NORMAL ∨
      D.IBPI_PATTERN_LOCATE > D.IBPI_PATTERN_LOCATE_OFF) := by omega
  have hw := vmdssd_write_resolved D env device D.IBPI_PATTERN_LOCATE s _ slot
    (fun e => hprev e.symm) hin hf
  obtain ⟨hr, new, ht, hwr⟩ := vmdssd_write_attention_buf_result D env slot
    D.IBPI_PATTERN_LOCATE
    ((0, (⟨_, _⟩ : Sys)) : Int × Sys).2 hB
  obtain ⟨tr, hp, hpw, _⟩ := vmdssd_find_pci_slot_trace env device.sysfs_path s
  rw [hf] at hp
  simp only at hp
  rw [attention_val_locate, attention_path_fits slot hfit] at hr hwr
  refine ⟨?_, tr ++ new, ?_, ?_⟩
  · rw [hw, hr, if_neg (by rw [hwrite]; decide), hS0]
  · rw [hw, ht, hp, List.append_assoc]
  · rw [writes_append, hpw, hwr]; rfl

/-- Witness for C12: the sample drive, last-applied intent normal, and a registry with
the slot "0000:00:1c". -/
theorem vmdssd_write_end_to_end_witness :
    sample_decls.enum_ok ∧ sample_decls.status_ok ∧ sample_decls.buffer_ok ∧
    segments (sample_drive 2).sysfs_path = [] :: "sys".toList ::
      ["devices".toList, "pci0000:00".toList] ++
      ["0000:00:1c.0".toList, "nvme".toList, "nvme0".toList] ∧
    (vmdssd_write sample_decls
      (sample_env [⟨"/sys/bus/pci/slots/3".toList, "0000:00:1c".toList⟩] (some SYSFS_PCIEHP) 0)
      (sample_drive 2) sample_decls.IBPI_PATTERN_LOCATE ⟨0, []⟩).1 = 0 :=
  ⟨by decide, by decide, by decide, by decide,
    (vmdssd_write_end_to_end sample_decls
      (sample_env [⟨"/sys/bus/pci/slots/3".toList, "0000:00:1c".toList⟩] (some SYSFS_PCIEHP) 0)
      (sample_drive 2) ⟨0, []⟩ ["devices".toList, "pci0000:00".toList] []
      ⟨"/sys/bus/pci/slots/3".toList, "0000:00:1c".toList⟩ []
      (by decide) (by decide) (by decide) (by decide) (by decide) (by decide) (by decide)
      (by decide) (by decide) (by decide) (by decide) (by decide) (by decide)).1⟩

/-- Counterexample for C12 as stated, with the sample drive
"/sys/devices/pci0000:00/0000:00:1c.0/nvme/nvme0", last-applied intent normal, intent
locate (10). The candidate is "0000:00:1c". With a registry that holds the slot
"0000:00:1c.0" (module entry canonicalising to pciehp) the call returns -1 with errno
ENODEV and writes nothing. With a registry that holds the slot "0000:00:1c" in
"/sys/bus/pci/slots/4" and the slot "0000:00:1c.0" in "/sys/bus/pci/slots/3", the one
write goes to the attention file of the former. -/
theorem vmdssd_write_end_to_end_counterexample :
    get_slot_from_syspath (sample_drive 2).sysfs_path = some "0000:00:1c".toList ∧
    vmdssd_write sample_decls
        (sample_env [⟨"/sys/bus/pci/slots/3".toList, "0000:00:1c.0".toList⟩]
          (some SYSFS_PCIEHP) 0)
        (sample_drive 2) 10 ⟨0, []⟩ =
      (-1, ⟨ENODEV, [Call.sysfs_get_pci_slots,
        Call.log_debug "PCI hotplug slot not found for %s\n" "nvme0".toList]⟩) ∧
    writes (vmdssd_write sample_decls
        (sample_env [⟨"/sys/bus/pci/slots/4".toList, "0000:00:1c".toList⟩,
          ⟨"/sys/bus/pci/slots/3".toList, "0000:00:1c.0".toList⟩] (some SYSFS_PCIEHP) 0)
        (sample_drive 2) 10 ⟨0, []⟩).2.trace =
      [("/sys/bus/pci/slots/4/attention".toList, "7".toList)] := by
  decide

/-! ## Facts about the memory-level model: which buffers are written -/

theorem same_but_refl (t : Nat) (m : Mem) : m.same_but t m :=
  ⟨rfl, rfl, rfl, fun _ _ => rfl⟩

theorem same_but_trans (t : Nat) (m m1 m2 : Mem) (h1 : m.same_but t m1)
    (h2 : m1.same_but t m2) : m.same_but t m2 := by
  obtain ⟨a1, a2, a3, a4⟩ := h1
  obtain ⟨b1, b2, b3, b4⟩ := h2
  exact ⟨b1.trans a1, b2.trans a2, b3.trans a3, fun b hb => (b4 b hb).trans (a4 b hb)⟩

theorem strtok_mem_same_but (m : Mem) (s : Option Ptr) (delim : CStr) :
    m.same_but (s.getD m.saved).buf (strtok_mem m s delim).2 ∧
    (strtok_mem m s delim).2.saved.buf = (s.getD m.saved).buf ∧
    ∀ r, (strtok_mem m s delim).1 = some r → r.buf = (s.getD m.saved).buf := by
  unfold strtok_mem
  dsimp only
  split
  · exact ⟨same_but_refl _ _, rfl, fun r hr => by simp at hr⟩
  · split
    · refine ⟨same_but_refl _ _, rfl, fun r hr => ?_⟩
      simp only [Option.some.injEq] at hr
      rw [← hr]
    · refine ⟨⟨rfl, rfl, rfl, fun b hb => ?_⟩, rfl, fun r hr => ?_⟩
      · simp only [Mem.poke, if_neg hb]
      · simp only [Option.some.injEq] at hr
        rw [← hr]

theorem nvme_loop_mem_same_but (fuel : Nat) : ∀ (c : Ptr) (m : Mem)
    (h : (m.heap m.saved.buf).length - m.saved.off < fuel),
    m.same_but m.saved.buf (nvme_loop_mem fuel (some c) m h).2 ∧
    (nvme_loop_mem fuel (some c) m h).2.saved.buf = m.saved.buf ∧
    ∀ r, (nvme_loop_mem fuel (some c) m h).1 = some r → r.buf = c.buf ∨ r.buf = m.saved.buf := by
  induction fuel with
  | zero => intro c m h; exact absurd h (Nat.not_lt_zero _)
  | succ n ih =>
    intro c m h
    obtain ⟨f1, f2, f3⟩ := strtok_mem_same_but m none "/".toList
    simp only [Option.getD_none] at f1 f2 f3
    unfold nvme_loop_mem
    split
    · rename_i m1 hs
      rw [hs] at f1 f2
      exact ⟨f1, f2, fun r hr => by simp at hr⟩
    · rename_i next m1 hs
      rw [hs] at f1 f2 f3
      simp only at f1 f2 f3
      split
      · refine ⟨f1, f2, fun r hr => ?_⟩
        simp only [Option.some.injEq] at hr
        exact Or.inl (by rw [← hr])
      · generalize_proofs hp
        obtain ⟨g1, g2, g3⟩ := ih next m1 hp
        refine ⟨same_but_trans _ _ _ _ f1 (f2 ▸ g1), g2.trans f2, fun r hr => Or.inr ?_⟩
        rcases g3 r hr with e | e
        · rw [e]; exact f3 next rfl
        · exact e.trans f2

theorem nvme_loop_mem_null (fuel : Nat) (m : Mem)
    (h : (m.heap m.saved.buf).length - m.saved.off < fuel) :
    nvme_loop_mem fuel none m h = (none, m) := by
  cases fuel with
  | zero => exact absurd h (Nat.not_lt_zero _)
  | succ n => rfl

theorem str_dup_mem_facts (m : Mem) (p : Ptr) :
    (str_dup_mem m p).1 = ⟨m.brk, 0⟩ ∧ (str_dup_mem m p).2.brk = m.brk + 1 ∧
    (str_dup_mem m p).2.device = m.device ∧ (str_dup_mem m p).2.slots = m.slots ∧
    (str_dup_mem m p).2.heap m.brk = m.cstr p ++ [NUL] ∧
    ∀ b, b ≠ m.brk → (str_dup_mem m p).2.heap b = m.heap b := by
  refine ⟨rfl, rfl, rfl, rfl, ?_, fun b hb => ?_⟩
  · simp only [str_dup_mem, if_true]
  · simp only [str_dup_mem, if_neg hb]

theorem tokenise_same_but (m0 : Mem) (t : Ptr) :
    m0.same_but t.buf (tokenise_mem m0 t).2 ∧
    ∀ r, (tokenise_mem m0 t).1 = some r → r.buf = t.buf := by
  unfold tokenise_mem
  dsimp only
  obtain ⟨a1, a2, a3⟩ := strtok_mem_same_but m0 (some t) "/".toList
  simp only [Option.getD_some] at a1 a2 a3
  have hloop : (strtok_mem m0 (some t) "/".toList).2.same_but t.buf
      (nvme_loop_mem _ (strtok_mem m0 (some t) "/".toList).1
        (strtok_mem m0 (some t) "/".toList).2 (Nat.lt_succ_self _)).2 ∧
      (nvme_loop_mem _ (strtok_mem m0 (some t) "/".toList).1
        (strtok_mem m0 (some t) "/".toList).2 (Nat.lt_succ_self _)).2.saved.buf = t.buf ∧
      ∀ r, (nvme_loop_mem _ (strtok_mem m0 (some t) "/".toList).1
        (strtok_mem m0 (some t) "/".toList).2 (Nat.lt_succ_self _)).1 = some r →
        r.buf = t.buf := by
    cases hc : (strtok_mem m0 (some t) "/".toList).1 with
    | none =>
      rw [nvme_loop_mem_null]
      exact ⟨same_but_refl _ _, a2, fun r hr => by simp at hr⟩
    | some c =>
      obtain ⟨g1, g2, g3⟩ := nvme_loop_mem_same_but _ c (strtok_mem m0 (some t) "/".toList).2
        (Nat.lt_succ_self _)
      refine ⟨a2 ▸ g1, g2.trans a2, fun r hr => ?_⟩
      rcases g3 r hr with e | e
      · exact e.trans (a3 c hc)
      · exact e.trans a2
  obtain ⟨l1, l2, l3⟩ := hloop
  obtain ⟨b1, b2, b3⟩ := strtok_mem_same_but
    (nvme_loop_mem _ (strtok_mem m0 (some t) "/".toList).1
      (strtok_mem m0 (some t) "/".toList).2 (Nat.lt_succ_self _)).2
    (nvme_loop_mem _ (strtok_mem m0 (some t) "/".toList).1
      (strtok_mem m0 (some t) "/".toList).2 (Nat.lt_succ_self _)).1 ".".toList
  have hp : ((nvme_loop_mem _ (strtok_mem m0 (some t) "/".toList).1
      (strtok_mem m0 (some t) "/".toList).2 (Nat.lt_succ_self _)).1.getD
      (nvme_loop_mem _ (strtok_mem m0 (some t) "/".toList).1
      (strtok_mem m0 (some t) "/".toList).2 (Nat.lt_succ_self _)).2.saved).buf = t.buf := by
    cases hl : (nvme_loop_mem _ (strtok_mem m0 (some t) "/".toList).1
      (strtok_mem m0 (some t) "/".toList).2 (Nat.lt_succ_self _)).1 with
    | none => exact l2
    | some r => exact l3 r hl
  rw [hp] at b1 b3
  exact ⟨same_but_trans _ _ _ _ a1 (same_but_trans _ _ _ _ l1 b1), b3⟩

theorem free_mem_facts (m : Mem) (p : Ptr) :
    (free_mem m p).device = m.device ∧ (free_mem m p).slots = m.slots ∧
    (free_mem m p).brk = m.brk ∧ ∀ b, b ≠ p.buf → (free_mem m p).heap b = m.heap b := by
  refine ⟨rfl, rfl, rfl, fun b hb => ?_⟩
  simp only [free_mem, if_neg hb]

theorem get_slot_from_syspath_mem_keeps (m : Mem) (path : Ptr) :
    m.keeps (get_slot_from_syspath_mem m path).2 ∧
    ∀ r, (get_slot_from_syspath_mem m path).1 = some r →
      m.brk ≤ r.buf ∧ r.buf < (get_slot_from_syspath_mem m path).2.brk := by
  obtain ⟨d1, d2, d3, d4, _, d6⟩ := str_dup_mem_facts m path
  obtain ⟨⟨t1, t2, t3, t4⟩, _⟩ := tokenise_same_but (str_dup_mem m path).2 (str_dup_mem m path).1
  unfold get_slot_from_syspath_mem
  dsimp only
  generalize tokenise_mem (str_dup_mem m path).2 (str_dup_mem m path).1 = T at t1 t2 t3 t4 ⊢
  generalize str_dup_mem m path = dup at d1 d2 d3 d4 d6 t1 t2 t3 t4 ⊢
  rw [d1] at t4
  simp only at t4
  cases hc : T.1 with
  | none =>
    dsimp only
    obtain ⟨f1, f2, f3, f4⟩ := free_mem_facts T.2 dup.1
    have hd : dup.1.buf = m.brk := by rw [d1]
    refine ⟨⟨?_, ?_, ?_, fun b hb => ?_⟩, fun r hr => by simp at hr⟩
    · rw [f1, t1, d3]
    · rw [f2, t2, d4]
    · rw [f3, t3, d2]; omega
    · have hne : b ≠ m.brk := by omega
      rw [f4 b (by rw [hd]; exact hne), t4 b hne, d6 b hne]
  | some c =>
    dsimp only
    obtain ⟨e1, e2, e3, e4, _, e6⟩ := str_dup_mem_facts T.2 c
    obtain ⟨f1, f2, f3, f4⟩ := free_mem_facts (str_dup_mem T.2 c).2 dup.1
    have hd : dup.1.buf = m.brk := by rw [d1]
    rw [t3, d2] at e6 e2 e1
    refine ⟨⟨?_, ?_, ?_, fun b hb => ?_⟩, fun r hr => ?_⟩
    · rw [f1, e3, t1, d3]
    · rw [f2, e4, t2, d4]
    · rw [f3, e2]; omega
    · have hne : b ≠ m.brk := by omega
      have hne2 : b ≠ m.brk + 1 := by omega
      rw [f4 b (by rw [hd]; exact hne), e6 b hne2, t4 b hne, d6 b hne]
    · simp only [Option.some.injEq] at hr
      subst hr
      rw [f3, e2, e1]
      constructor <;> simp only <;> omega

theorem free_mem_keeps (m m1 : Mem) (p : Ptr) (h : m.keeps m1) (hp : m.brk ≤ p.buf) :
    m.keeps (free_mem m1 p) := by
  obtain ⟨h1, h2, h3, h4⟩ := h
  obtain ⟨f1, f2, f3, f4⟩ := free_mem_facts m1 p
  refine ⟨f1.trans h1, f2.trans h2, by rw [f3]; exact h3, fun b hb => ?_⟩
  have hne : b ≠ p.buf := by omega
  rw [f4 b hne]
  exact h4 b hb

theorem vmdssd_find_pci_slot_mem_keeps (env : Env) (m : Mem) (path : Ptr) (s : Sys) :
    m.keeps (vmdssd_find_pci_slot_mem env m path s).2.2 := by
  obtain ⟨hk, hr⟩ := get_slot_from_syspath_mem_keeps m path
  unfold vmdssd_find_pci_slot_mem
  dsimp only
  generalize get_slot_from_syspath_mem m path = g at hk hr ⊢
  cases hg : g.1 with
  | none => exact hk
  | some a =>
    have hf := free_mem_keeps m _ a hk (hr a hg).1
    dsimp only
    split
    · exact hf
    · split <;> exact hf

theorem keeps_refl (m : Mem) : m.keeps m :=
  ⟨rfl, rfl, Nat.le_refl _, fun _ _ => rfl⟩

theorem vmdssd_write_mem_keeps (D : Decls) (env : Env) (m : Mem) (ibpi : Int) (s : Sys) :
    m.keeps (vmdssd_write_mem D env m ibpi s).2.2 := by
  unfold vmdssd_write_mem
  split
  · exact keeps_refl m
  · split
    · exact keeps_refl m
    · have hf := vmdssd_find_pci_slot_mem_keeps env m m.device.sysfs_path s
      dsimp only
      generalize vmdssd_find_pci_slot_mem env m m.device.sysfs_path s = f at hf ⊢
      split <;> exact hf

/-! ## Facts about the memory-level model: the strings it computes -/

theorem drop_length_takeWhile (p : Char → Bool) (l : CStr) :
    l.drop (l.takeWhile p).length = l.dropWhile p := by
  induction l with
  | nil => rfl
  | cons c cs ih =>
    cases hc : p c
    · rw [takeWhile_cons_false p c cs hc, dropWhile_cons_false p c cs hc]; rfl
    · rw [takeWhile_cons_true p c cs hc, dropWhile_cons_true p c cs hc]
      exact ih

theorem takeWhile_dropWhile_nil (p : Char → Bool) (l : CStr) :
    (l.dropWhile p).takeWhile p = [] := by
  induction l with
  | nil => rfl
  | cons c cs ih =>
    cases hc : p c
    · rw [dropWhile_cons_false p c cs hc, takeWhile_cons_false p c cs hc]
    · rw [dropWhile_cons_true p c cs hc]; exact ih

theorem takeWhile_of_dropWhile_nil (p : Char → Bool) (l : CStr) (h : l.dropWhile p = []) :
    l.takeWhile p = l := by
  have := List.takeWhile_append_dropWhile p l
  rw [h, List.append_nil] at this
  exact this

theorem takeWhile_nul_append (a b : CStr) (ha : ∀ x ∈ a, (x != NUL) = true)
    (hb : b.takeWhile (fun c => c != NUL) = []) :
    (a ++ b).takeWhile (fun c => c != NUL) = a := by
  rw [List.takeWhile_append_of_pos ha, hb, List.append_nil]

theorem takeWhile_set_beyond (X : CStr) (j : Nat) (x : Char)
    (h : (X.takeWhile (fun c => c != NUL)).length < j) :
    (X.set j x).takeWhile (fun c => c != NUL) = X.takeWhile (fun c => c != NUL) := by
  induction X generalizing j with
  | nil => rfl
  | cons y ys ih =>
    cases j with
    | zero => exact absurd h (Nat.not_lt_zero _)
    | succ j1 =>
      rw [List.set_cons_succ]
      cases hy : (y != NUL)
      · rw [takeWhile_cons_false _ y _ hy, takeWhile_cons_false _ y _ hy]
      · rw [takeWhile_cons_true _ y _ hy, takeWhile_cons_true _ y _ hy]
        rw [takeWhile_cons_true _ y _ hy] at h
        rw [ih j1 (by simpa using h)]

theorem set_at_delimiter (a b : CStr) (d x : Char) :
    (a ++ d :: b).set a.length x = a ++ x :: b := by
  rw [List.set_append_right _ _ (Nat.le_refl _), Nat.sub_self]
  rfl

/-- The bytes of a string that strtok looks at, cut into the leading delimiters, the
token, and what follows it. -/
theorem cstr_split (X : CStr) (delim : CStr) :
    X = (X.takeWhile (fun c => c != NUL)).takeWhile (fun c => delim.contains c) ++
      ((X.takeWhile (fun c => c != NUL)).dropWhile (fun c => delim.contains c) ++
        X.dropWhile (fun c => c != NUL)) := by
  rw [← List.append_assoc, List.takeWhile_append_dropWhile, List.takeWhile_append_dropWhile]

theorem strtok_bytes_none (X delim : CStr)
    (h : (X.takeWhile (fun c => c != NUL)).dropWhile (fun c => delim.contains c) = []) :
    (X.drop ((X.takeWhile (fun c => c != NUL)).takeWhile
      (fun c => delim.contains c)).length).takeWhile (fun c => c != NUL) = [] := by
  rw [takeWhile_of_dropWhile_nil _ _ h, drop_length_takeWhile]
  exact takeWhile_dropWhile_nil _ _

theorem strtok_bytes_end (X delim : CStr) (c : Char) (cs : CStr)
    (h : (X.takeWhile (fun c => c != NUL)).dropWhile (fun c => delim.contains c) = c :: cs)
    (h2 : cs.dropWhile (fun x => !delim.contains x) = []) :
    (X.drop ((X.takeWhile (fun c => c != NUL)).takeWhile
      (fun c => delim.contains c)).length).takeWhile (fun c => c != NUL) =
        c :: cs.takeWhile (fun x => !delim.contains x) ∧
    (X.drop (((X.takeWhile (fun c => c != NUL)).takeWhile
      (fun c => delim.contains c)).length + 1 +
        (cs.takeWhile (fun x => !delim.contains x)).length)).takeWhile (fun c => c != NUL) =
        [] := by
  have hX := cstr_split X delim
  rw [h] at hX
  have hmem : ∀ x ∈ c :: cs, (x != NUL) = true := by
    intro x hx
    have h1 : x ∈ (X.takeWhile (fun c => c != NUL)).dropWhile (fun c => delim.contains c) := by
      rw [h]; exact hx
    have h3 := List.mem_takeWhile_imp ((List.dropWhile_sublist _).subset h1)
    exact h3
  rw [takeWhile_of_dropWhile_nil _ _ h2]
  generalize (X.takeWhile (fun c => c != NUL)).takeWhile (fun c => delim.contains c) = dl at hX ⊢
  have htl := takeWhile_dropWhile_nil (fun c => c != NUL) X
  generalize X.dropWhile (fun c => c != NUL) = tl at hX htl
  subst hX
  constructor
  · rw [List.drop_left]
    exact takeWhile_nul_append _ _ hmem htl
  · have e : dl.length + 1 + cs.length = (dl ++ c :: cs).length := by
      rw [List.length_append, List.length_cons]; omega
    rw [e, ← List.append_assoc, List.drop_left]
    exact htl

theorem strtok_bytes_poke (X delim : CStr) (c : Char) (cs : CStr) (d : Char) (rest : CStr)
    (h : (X.takeWhile (fun c => c != NUL)).dropWhile (fun c => delim.contains c) = c :: cs)
    (h2 : cs.dropWhile (fun x => !delim.contains x) = d :: rest) :
    ((X.set (((X.takeWhile (fun c => c != NUL)).takeWhile
      (fun c => delim.contains c)).length + 1 +
        (cs.takeWhile (fun x => !delim.contains x)).length) NUL).drop
      ((X.takeWhile (fun c => c != NUL)).takeWhile
        (fun c => delim.contains c)).length).takeWhile (fun c => c != NUL) =
        c :: cs.takeWhile (fun x => !delim.contains x) ∧
    ((X.set (((X.takeWhile (fun c => c != NUL)).takeWhile
      (fun c => delim.contains c)).length + 1 +
        (cs.takeWhile (fun x => !delim.contains x)).length) NUL).drop
      (((X.takeWhile (fun c => c != NUL)).takeWhile
        (fun c => delim.contains c)).length + 1 +
        (cs.takeWhile (fun x => !delim.contains x)).length + 1)).takeWhile
        (fun c => c != NUL) = rest := by
  have hX := cstr_split X delim
  rw [h] at hX
  have hcs := List.takeWhile_append_dropWhile (fun x => !delim.contains x) cs
  rw [h2] at hcs
  have hmem : ∀ x ∈ c :: cs, (x != NUL) = true := by
    intro x hx
    have h1 : x ∈ (X.takeWhile (fun c => c != NUL)).dropWhile (fun c => delim.contains c) := by
      rw [h]; exact hx
    have h3 := List.mem_takeWhile_imp ((List.dropWhile_sublist _).subset h1)
    exact h3
  generalize (X.takeWhile (fun c => c != NUL)).takeWhile (fun c => delim.contains c) = dl at hX ⊢
  generalize cs.takeWhile (fun x => !delim.contains x) = tk at hcs ⊢
  have htl := takeWhile_dropWhile_nil (fun c => c != NUL) X
  generalize X.dropWhile (fun c => c != NUL) = tl at hX htl
  subst hcs
  have hX2 : X = (dl ++ c :: tk) ++ d :: (rest ++ tl) := by
    rw [hX]; simp
  have e : dl.length + 1 + tk.length = (dl ++ c :: tk).length := by
    rw [List.length_append, List.length_cons]; omega
  have hset : X.set (dl.length + 1 + tk.length) NUL = (dl ++ c :: tk) ++ NUL :: (rest ++ tl) := by
    rw [e, hX2]; exact set_at_delimiter _ _ _ _
  rw [hset]
  have hnul : (NUL :: (rest ++ tl)).takeWhile (fun c => c != NUL) = [] := by
    rw [takeWhile_cons_false _ NUL _ (by decide)]
  constructor
  · rw [List.append_assoc, List.drop_left]
    refine takeWhile_nul_append (c :: tk) _ (fun x hx => hmem x ?_) hnul
    rcases List.mem_cons.mp hx with rfl | hx
    · exact List.mem_cons_self _ _
    · exact List.mem_cons_of_mem _ (List.mem_append_left _ hx)
  · have e2 : dl.length + 1 + tk.length + 1 = ((dl ++ c :: tk) ++ [NUL]).length := by
      rw [List.length_append, List.length_append, List.length_cons, List.length_singleton]
      omega
    have e3 : (dl ++ c :: tk) ++ NUL :: (rest ++ tl) = ((dl ++ c :: tk) ++ [NUL]) ++ (rest ++ tl) := by
      simp
    rw [e2, e3, List.drop_left]
    refine takeWhile_nul_append rest tl (fun x hx => hmem x ?_) htl
    exact List.mem_cons_of_mem _ (List.mem_append_right _ (List.mem_cons_of_mem _ hx))

theorem bytes_add (m : Mem) (p : Ptr) (j : Nat) :
    m.bytes ⟨p.buf, p.off + j⟩ = (m.bytes p).drop j := by
  unfold Mem.bytes
  rw [List.drop_drop]

theorem bytes_poke_add (m : Mem) (p : Ptr) (i j : Nat) (x : Char) :
    (m.poke ⟨p.buf, p.off + i⟩ x).bytes ⟨p.buf, p.off + j⟩ = ((m.bytes p).set i x).drop j := by
  unfold Mem.bytes Mem.poke
  simp only [if_true]
  rw [List.set_drop, List.drop_drop]

theorem bytes_poke_before (m : Mem) (p q : Ptr) (i : Nat) (x : Char) (hb : q.buf = p.buf)
    (hq : q.off + (m.cstr q).length ≤ p.off) (hi : 0 < i) :
    (m.poke ⟨p.buf, p.off + i⟩ x).cstr q = m.cstr q := by
  unfold Mem.cstr at hq ⊢
  have e : (m.poke ⟨p.buf, p.off + i⟩ x).bytes q = (m.bytes q).set (p.off + i - q.off) x := by
    unfold Mem.bytes Mem.poke
    simp only [hb, if_true]
    rw [List.drop_set, if_neg (by omega)]
  rw [e]
  exact takeWhile_set_beyond _ _ _ (by omega)

theorem bytes_poke_other (m : Mem) (p q : Ptr) (x : Char) (hb : q.buf ≠ p.buf) :
    (m.poke p x).cstr q = m.cstr q := by
  unfold Mem.cstr Mem.bytes Mem.poke
  simp only [if_neg hb]

/-- What strtok over memory computes: the token string and the string at the saved
pointer are those of `strtok` on the string it starts at; the token ends at or before
the saved pointer; and strings of the same buffer that end at or before the start, and
strings of other buffers, read as before. -/
theorem strtok_mem_strings (m : Mem) (s : Option Ptr) (delim : CStr) :
    (strtok_mem m s delim).1.map (strtok_mem m s delim).2.cstr =
      (strtok (m.cstr (s.getD m.saved)) delim).1 ∧
    (strtok_mem m s delim).2.cstr (strtok_mem m s delim).2.saved =
      (strtok (m.cstr (s.getD m.saved)) delim).2 ∧
    (∀ r, (strtok_mem m s delim).1 = some r →
      r.off + ((strtok_mem m s delim).2.cstr r).length ≤ (strtok_mem m s delim).2.saved.off) ∧
    (∀ q : Ptr, q.buf = (s.getD m.saved).buf →
      q.off + (m.cstr q).length ≤ (s.getD m.saved).off →
      (strtok_mem m s delim).2.cstr q = m.cstr q) ∧
    (∀ q : Ptr, q.buf ≠ (s.getD m.saved).buf → (strtok_mem m s delim).2.cstr q = m.cstr q) := by
  unfold strtok_mem strtok
  dsimp only
  generalize s.getD m.saved = p
  rw [drop_length_takeWhile]
  have hX : m.cstr p = (m.bytes p).takeWhile (fun c => c != NUL) := rfl
  cases h : (m.cstr p).dropWhile (fun c => delim.contains c) with
  | nil =>
    dsimp only
    refine ⟨rfl, ?_, fun r hr => by simp at hr, fun q _ _ => rfl, fun q _ => rfl⟩
    show ({ m with saved := _ } : Mem).cstr _ = []
    show (m.bytes ⟨p.buf, p.off + _⟩).takeWhile _ = []
    rw [bytes_add, hX]
    rw [hX] at h
    exact strtok_bytes_none _ _ h
  | cons c cs =>
    dsimp only
    rw [drop_length_takeWhile]
    rw [hX] at h
    cases h2 : cs.dropWhile (fun x => !delim.contains x) with
    | nil =>
      dsimp only
      obtain ⟨a1, a2⟩ := strtok_bytes_end _ _ c cs h h2
      have b1 : m.cstr ⟨p.buf, p.off + ((m.cstr p).takeWhile
          (fun c => delim.contains c)).length⟩ =
          c :: cs.takeWhile (fun x => !delim.contains x) := by
        show (m.bytes ⟨p.buf, p.off + _⟩).takeWhile _ = _
        rw [bytes_add, hX]; exact a1
      refine ⟨?_, ?_, fun r hr => ?_, fun q _ _ => rfl, fun q _ => rfl⟩
      · show some (m.cstr _) = _
        rw [b1]
      · show (m.bytes ⟨p.buf, p.off + _ + 1 + _⟩).takeWhile _ = _
        rw [Nat.add_assoc, Nat.add_assoc, bytes_add, hX, ← Nat.add_assoc]
        exact a2
      · simp only [Option.some.injEq] at hr
        subst hr
        show _ + (m.cstr _).length ≤ _
        rw [b1]
        simp only [List.length_cons]
        omega
    | cons d rest =>
      dsimp only
      obtain ⟨a1, a2⟩ := strtok_bytes_poke _ _ c cs d rest h h2
      have b1 : (m.poke ⟨p.buf, p.off + ((m.cstr p).takeWhile
          (fun c => delim.contains c)).length + 1 +
          (cs.takeWhile (fun x => !delim.contains x)).length⟩ NUL).cstr
          ⟨p.buf, p.off + ((m.cstr p).takeWhile (fun c => delim.contains c)).length⟩ =
          c :: cs.takeWhile (fun x => !delim.contains x) := by
        show ((m.poke _ NUL).bytes ⟨p.buf, p.off + _⟩).takeWhile _ = _
        rw [Nat.add_assoc, Nat.add_assoc, bytes_poke_add, hX, ← Nat.add_assoc]
        exact a1
      refine ⟨?_, ?_, fun r hr => ?_, fun q hq1 hq2 => ?_, fun q hq => ?_⟩
      · show some ((m.poke _ NUL).cstr _) = _
        rw [b1]
      · show ((m.poke _ NUL).bytes ⟨p.buf, p.off + _ + 1 + _ + 1⟩).takeWhile _ = _
        rw [List.drop_one]
        have e : p.off + ((m.cstr p).takeWhile (fun c => delim.contains c)).length + 1 +
            (cs.takeWhile (fun x => !delim.contains x)).length + 1 =
            p.off + (((m.cstr p).takeWhile (fun c => delim.contains c)).length + 1 +
            (cs.takeWhile (fun x => !delim.contains x)).length + 1) := by omega
        rw [e, Nat.add_assoc p.off, Nat.add_assoc p.off, bytes_poke_add, hX]
        exact a2
      · simp only [Option.some.injEq] at hr
        subst hr
        show _ + ((m.poke _ NUL).cstr _).length ≤ _
        rw [b1]
        simp only [List.length_cons]
        omega
      · show (m.poke _ NUL).cstr q = _
        rw [Nat.add_assoc, Nat.add_assoc]
        exact bytes_poke_before m p q _ NUL hq1 hq2 (by omega)
      · show (m.poke _ NUL).cstr q = _
        exact bytes_poke_other m _ q NUL hq

theorem tokens_of_head (S t : CStr) (h : (tokens S).head? = some t) :
    tokens S = t :: (tokens S).tail := by
  cases hT : tokens S with
  | nil => rw [hT] at h; simp at h
  | cons a as =>
    rw [hT] at h
    simp only [List.head?_cons, Option.some.injEq] at h
    rw [h]; rfl

theorem tokens_of_head_none (S : CStr) (h : (tokens S).head? = none) : tokens S = [] := by
  cases hT : tokens S with
  | nil => rfl
  | cons a as => rw [hT] at h; simp at h

/-- What the while loop over memory computes: the string of the pointer it leaves in
`cur` is the token before the first "nvme" among `cur` and the tokens still to come;
and when it leaves NULL the saved pointer is at the end of the string. -/
theorem nvme_loop_mem_strings (fuel : Nat) : ∀ (c : Ptr) (m : Mem)
    (h : (m.heap m.saved.buf).length - m.saved.off < fuel),
    c.buf = m.saved.buf → c.off + (m.cstr c).length ≤ m.saved.off →
    (nvme_loop_mem fuel (some c) m h).1.map (nvme_loop_mem fuel (some c) m h).2.cstr =
      before_first_nvme (m.cstr c :: tokens (m.cstr m.saved)) ∧
    ((nvme_loop_mem fuel (some c) m h).1 = none →
      (nvme_loop_mem fuel (some c) m h).2.cstr (nvme_loop_mem fuel (some c) m h).2.saved =
        []) := by
  induction fuel with
  | zero => intro c m h; exact absurd h (Nat.not_lt_zero _)
  | succ n ih =>
    intro c m h hcb hco
    obtain ⟨f1, f2, f3, f4, _⟩ := strtok_mem_strings m none "/".toList
    obtain ⟨_, g2, g3⟩ := strtok_mem_same_but m none "/".toList
    obtain ⟨p1, p2⟩ := strtok_slash_tokens (m.cstr m.saved)
    have p3 := strtok_none_saved (m.cstr m.saved) "/".toList
    simp only [Option.getD_none] at f1 f2 f3 f4 g2 g3
    unfold nvme_loop_mem
    split
    · rename_i m1 hs
      rw [hs] at f1 f2
      simp only [Option.map] at f1 f2
      rw [← f1] at p1 p3
      rw [tokens_of_head_none _ p1.symm]
      refine ⟨rfl, fun _ => ?_⟩
      rw [f2]
      exact p3 rfl
    · rename_i next m1 hs
      rw [hs] at f1 f2 f3 f4 g2 g3
      simp only [Option.map] at f1 f2 f3 f4 g2 g3
      rw [← f1] at p1
      rw [← f2] at p2
      rw [tokens_of_head _ _ p1.symm, ← p2]
      unfold before_first_nvme
      split
      · rename_i hn
        refine ⟨?_, fun hr => by simp at hr⟩
        show some (m1.cstr c) = _
        rw [f4 c hcb hco]
      · rename_i hn
        generalize_proofs hp
        exact ih next m1 hp ((g3 next rfl).trans g2.symm) (f3 next rfl)

/-- What the tokenising steps over memory compute: the string of the pointer they end
with is the result of `get_slot_from_syspath` on the string they start from. -/
theorem tokenise_mem_strings (m0 : Mem) (t : Ptr) :
    (tokenise_mem m0 t).1.map (tokenise_mem m0 t).2.cstr =
      get_slot_from_syspath (m0.cstr t) := by
  rw [get_slot_from_syspath_tokens]
  unfold tokenise_mem
  dsimp only
  obtain ⟨a1, a2, a3, _, _⟩ := strtok_mem_strings m0 (some t) "/".toList
  obtain ⟨_, s2, s3⟩ := strtok_mem_same_but m0 (some t) "/".toList
  obtain ⟨p1, p2⟩ := strtok_slash_tokens (m0.cstr t)
  have p3 := strtok_none_saved (m0.cstr t) "/".toList
  simp only [Option.getD_some] at a1 a2 a3 s2 s3
  rw [← a1] at p1 p3
  rw [← a2] at p2 p3
  have hloop : (nvme_loop_mem _ (strtok_mem m0 (some t) "/".toList).1
        (strtok_mem m0 (some t) "/".toList).2 (Nat.lt_succ_self _)).1.map
        (nvme_loop_mem _ (strtok_mem m0 (some t) "/".toList).1
        (strtok_mem m0 (some t) "/".toList).2 (Nat.lt_succ_self _)).2.cstr =
        before_first_nvme (tokens (m0.cstr t)) ∧
      ((nvme_loop_mem _ (strtok_mem m0 (some t) "/".toList).1
        (strtok_mem m0 (some t) "/".toList).2 (Nat.lt_succ_self _)).1 = none →
        (nvme_loop_mem _ (strtok_mem m0 (some t) "/".toList).1
        (strtok_mem m0 (some t) "/".toList).2 (Nat.lt_succ_self _)).2.cstr
        (nvme_loop_mem _ (strtok_mem m0 (some t) "/".toList).1
        (strtok_mem m0 (some t) "/".toList).2 (Nat.lt_succ_self _)).2.saved = []) := by
    cases hc : (strtok_mem m0 (some t) "/".toList).1 with
    | none =>
      rw [nvme_loop_mem_null]
      rw [hc] at p1 p3
      simp only [Option.map] at p1 p3
      rw [tokens_of_head_none _ p1.symm]
      exact ⟨rfl, fun _ => p3 trivial⟩
    | some c =>
      rw [hc] at p1
      simp only [Option.map] at p1
      rw [tokens_of_head _ _ p1.symm, ← p2]
      exact nvme_loop_mem_strings _ c (strtok_mem m0 (some t) "/".toList).2
        (Nat.lt_succ_self _) ((s3 c hc).trans s2.symm) (a3 c hc)
  obtain ⟨l1, l2⟩ := hloop
  obtain ⟨b1, _⟩ := strtok_mem_strings
    (nvme_loop_mem _ (strtok_mem m0 (some t) "/".toList).1
      (strtok_mem m0 (some t) "/".toList).2 (Nat.lt_succ_self _)).2
    (nvme_loop_mem _ (strtok_mem m0 (some t) "/".toList).1
      (strtok_mem m0 (some t) "/".toList).2 (Nat.lt_succ_self _)).1 ".".toList
  rw [b1, ← l1]
  generalize nvme_loop_mem _ (strtok_mem m0 (some t) "/".toList).1
      (strtok_mem m0 (some t) "/".toList).2 (Nat.lt_succ_self _) = LL at l2 ⊢
  cases hl : LL.1 with
  | none =>
    simp only [Option.getD_none, Option.map]
    rw [l2 hl]
    rfl
  | some r => rfl

theorem cstr_at_copy (m : Mem) (b : Nat) (S : CStr) (hS : ∀ x ∈ S, (x != NUL) = true)
    (h : m.heap b = S ++ [NUL]) : m.cstr ⟨b, 0⟩ = S := by
  unfold Mem.cstr Mem.bytes
  simp only [List.drop_zero]
  rw [h]
  exact takeWhile_nul_append S [NUL] hS (by rw [takeWhile_cons_false _ NUL _ (by decide)])

theorem cstr_no_nul (m : Mem) (p : Ptr) : ∀ x ∈ m.cstr p, (x != NUL) = true := by
  intro x hx
  unfold Mem.cstr at hx
  have h3 := List.mem_takeWhile_imp hx
  exact h3

theorem cstr_same_heap (m m1 : Mem) (p : Ptr) (h : m1.heap p.buf = m.heap p.buf) :
    m1.cstr p = m.cstr p := by
  unfold Mem.cstr Mem.bytes
  rw [h]

/-- What `get_slot_from_syspath` over memory computes: the string it returns is the
result of `get_slot_from_syspath` on the string of the path. -/
theorem get_slot_from_syspath_mem_strings (m : Mem) (path : Ptr) :
    (get_slot_from_syspath_mem m path).1.map (get_slot_from_syspath_mem m path).2.cstr =
      get_slot_from_syspath (m.cstr path) := by
  obtain ⟨d1, d2, _, _, d5, _⟩ := str_dup_mem_facts m path
  have hT := tokenise_mem_strings (str_dup_mem m path).2 (str_dup_mem m path).1
  obtain ⟨⟨_, _, t3, _⟩, _⟩ := tokenise_same_but (str_dup_mem m path).2 (str_dup_mem m path).1
  have hcopy : (str_dup_mem m path).2.cstr (str_dup_mem m path).1 = m.cstr path := by
    rw [d1]
    exact cstr_at_copy _ _ _ (cstr_no_nul m path) d5
  rw [hcopy] at hT
  rw [← hT]
  unfold get_slot_from_syspath_mem
  dsimp only
  generalize tokenise_mem (str_dup_mem m path).2 (str_dup_mem m path).1 = T at t3 ⊢
  generalize str_dup_mem m path = dup at d1 d2 t3 ⊢
  cases hc : T.1 with
  | none => rfl
  | some c =>
    dsimp only
    obtain ⟨e1, _, _, _, e5, _⟩ := str_dup_mem_facts T.2 c
    obtain ⟨_, _, _, f4⟩ := free_mem_facts (str_dup_mem T.2 c).2 dup.1
    show some ((free_mem (str_dup_mem T.2 c).2 dup.1).cstr (str_dup_mem T.2 c).1) = some (T.2.cstr c)
    have hne : (str_dup_mem T.2 c).1.buf ≠ dup.1.buf := by
      rw [e1, d1, t3, d2]
      simp only
      omega
    rw [cstr_same_heap _ _ _ (f4 _ hne), e1]
    rw [cstr_at_copy _ _ _ (cstr_no_nul T.2 c) e5]

theorem keeps_cstr (m m1 : Mem) (q : Ptr) (h : m.keeps m1) (hq : q.buf < m.brk) :
    m1.cstr q = m.cstr q :=
  cstr_same_heap m m1 q (h.2.2.2 q.buf hq)

theorem slot_scan_mem_value (m m1 : Mem) (a : Ptr) (l : List pci_slot_rec)
    (h : ∀ r ∈ l, m1.cstr r.address = m.cstr r.address) :
    (slot_scan_mem m1 a l).map m.slot_value = slot_scan (m1.cstr a) (l.map m.slot_value) ∧
    ∀ r, slot_scan_mem m1 a l = some r → r ∈ l := by
  induction l with
  | nil => exact ⟨rfl, fun r hr => by simp [slot_scan_mem] at hr⟩
  | cons x xs ih =>
    obtain ⟨i1, i2⟩ := ih (fun r hr => h r (List.mem_cons_of_mem _ hr))
    have hx := h x (List.mem_cons_self _ _)
    unfold slot_scan_mem
    rw [List.map_cons]
    unfold slot_scan
    have e : (m.slot_value x).address = m.cstr x.address := rfl
    rw [e, hx]
    split
    · exact ⟨rfl, fun r hr => by
        simp only [Option.some.injEq] at hr
        rw [← hr]; exact List.mem_cons_self _ _⟩
    · exact ⟨i1, fun r hr => List.mem_cons_of_mem _ (i2 r hr)⟩

/-- What `vmdssd_find_pci_slot` over memory computes: the slot record it returns,
read out as a value, and the state after it are those of `vmdssd_find_pci_slot` on the
string of the path, when the registry is the list of the slot records read out. -/
theorem vmdssd_find_pci_slot_mem_value (env : Env) (m : Mem) (path : Ptr) (s : Sys)
    (hp : m.pointers_ok) (hreg : env.sysfs_get_pci_slots = m.slots.map m.slot_value) :
    ((vmdssd_find_pci_slot_mem env m path s).1.map m.slot_value,
      (vmdssd_find_pci_slot_mem env m path s).2.1) =
      vmdssd_find_pci_slot env (m.cstr path) s ∧
    ∀ r, (vmdssd_find_pci_slot_mem env m path s).1 = some r → r ∈ m.slots := by
  obtain ⟨hk, hr⟩ := get_slot_from_syspath_mem_keeps m path
  have hS := get_slot_from_syspath_mem_strings m path
  unfold vmdssd_find_pci_slot_mem vmdssd_find_pci_slot
  rw [← hS, hreg]
  dsimp only
  generalize get_slot_from_syspath_mem m path = g at hk hr ⊢
  cases hg : g.1 with
  | none => exact ⟨rfl, fun r hr => by simp at hr⟩
  | some a =>
    have hf := free_mem_keeps m _ a hk (hr a hg).1
    have haddr : ∀ r ∈ g.2.slots, g.2.cstr r.address = m.cstr r.address := by
      intro r hr1
      rw [hk.2.1] at hr1
      exact keeps_cstr m g.2 _ hk (hp.2 r hr1).2
    obtain ⟨v1, v2⟩ := slot_scan_mem_value m g.2 a g.2.slots haddr
    rw [hk.2.1] at v1 v2
    simp only [Option.map]
    rw [← v1]
    rw [hk.2.1]
    cases hscan : slot_scan_mem g.2 a m.slots with
    | none => exact ⟨rfl, fun r hr => by simp at hr⟩
    | some slot =>
      have hmem := v2 slot hscan
      have hpath : (free_mem g.2 a).cstr slot.sysfs_path = m.cstr slot.sysfs_path :=
        keeps_cstr m _ _ hf (hp.2 slot hmem).1
      simp only [Option.map]
      rw [hpath]
      have e : (m.slot_value slot).sysfs_path = m.cstr slot.sysfs_path := rfl
      rw [e]
      generalize check_slot_module env (m.cstr slot.sysfs_path)
        (call env Call.sysfs_get_pci_slots s) = r
      by_cases hlt : r.1 < 0
      · rw [if_pos hlt, if_pos hlt]
        exact ⟨rfl, fun r hr => by simp at hr⟩
      · rw [if_neg hlt, if_neg hlt]
        exact ⟨rfl, fun r hr => by
          simp only [Option.some.injEq] at hr
          rw [← hr]; exact hmem⟩

/-- What `vmdssd_write` over memory computes: the value it returns and the state after
it are those of `vmdssd_write` on the drive read out of memory, when the registry is
the list of the slot records read out. -/
theorem vmdssd_write_mem_value (D : Decls) (env : Env) (m : Mem) (ibpi : Int) (s : Sys)
    (hp : m.pointers_ok) (hreg : env.sysfs_get_pci_slots = m.slots.map m.slot_value) :
    ((vmdssd_write_mem D env m ibpi s).1, (vmdssd_write_mem D env m ibpi s).2.1) =
      vmdssd_write D env m.drive_value ibpi s := by
  obtain ⟨hv, hm⟩ := vmdssd_find_pci_slot_mem_value env m m.device.sysfs_path s hp hreg
  have hk := vmdssd_find_pci_slot_mem_keeps env m m.device.sysfs_path s
  unfold vmdssd_write_mem vmdssd_write
  have e1 : m.drive_value.ibpi_prev = m.device.ibpi_prev := rfl
  have e2 : m.drive_value.sysfs_path = m.cstr m.device.sysfs_path := rfl
  rw [e1, e2, ← hv]
  split
  · rfl
  · split
    · rfl
    · dsimp only
      generalize vmdssd_find_pci_slot_mem env m m.device.sysfs_path s = f at hm hk ⊢
      cases hf : f.1 with
      | none =>
        simp only [Option.map]
        rw [keeps_cstr m f.2.2 _ hk hp.1]
      | some slot =>
        simp only [Option.map]
        have hs : f.2.2.slot_value slot = m.slot_value slot := by
          unfold Mem.slot_value
          rw [keeps_cstr m f.2.2 _ hk (hp.2 slot (hm slot hf)).1,
            keeps_cstr m f.2.2 _ hk (hp.2 slot (hm slot hf)).2]
        rw [hs]

/-- C14. For every drive, intent and outcome, `vmdssd_write` over memory leaves the
drive record (its last-applied intent `ibpi_prev` and its path pointer), the string of
the drive's path, the list of slot records of the registry, the strings each slot record
points to, and every buffer allocated before the call as they were; the tokenising
writes only into the copy that `str_dup` hands out. The value it returns and the
outside calls it makes are those of `vmdssd_write` on the values read out of memory, so
this holds for each of the outcomes 0, ERANGE, ENODEV and the write error. -/
theorem vmdssd_write_leaves_memory (D : Decls) (env : Env) (m : Mem) (ibpi : Int) (s : Sys)
    (hp : m.pointers_ok) (hreg : env.sysfs_get_pci_slots = m.slots.map m.slot_value) :
    ((vmdssd_write_mem D env m ibpi s).1, (vmdssd_write_mem D env m ibpi s).2.1) =
      vmdssd_write D env m.drive_value ibpi s ∧
    (vmdssd_write_mem D env m ibpi s).2.2.device.ibpi_prev = m.device.ibpi_prev ∧
    (vmdssd_write_mem D env m ibpi s).2.2.device.sysfs_path = m.device.sysfs_path ∧
    (vmdssd_write_mem D env m ibpi s).2.2.cstr m.device.sysfs_path =
      m.cstr m.device.sysfs_path ∧
    (vmdssd_write_mem D env m ibpi s).2.2.slots = m.slots ∧
    (∀ r ∈ m.slots, (vmdssd_write_mem D env m ibpi s).2.2.slot_value r = m.slot_value r) ∧
    (∀ b, b < m.brk → (vmdssd_write_mem D env m ibpi s).2.2.heap b = m.heap b) := by
  have hk := vmdssd_write_mem_keeps D env m ibpi s
  have hv := vmdssd_write_mem_value D env m ibpi s hp hreg
  refine ⟨hv, ?_, ?_, keeps_cstr m _ _ hk hp.1, hk.2.1, fun r hr => ?_, hk.2.2.2⟩
  · rw [hk.1]
  · rw [hk.1]
  · unfold Mem.slot_value
    rw [keeps_cstr m _ _ hk (hp.2 r hr).1, keeps_cstr m _ _ hk (hp.2 r hr).2]

theorem vmdssd_write_leaves_memory_witness :
    (sample_mem 2).pointers_ok ∧
    (sample_env [⟨"/sys/bus/pci/slots/3".toList, "0000:00:1c".toList⟩]
      (some SYSFS_PCIEHP) 0).sysfs_get_pci_slots =
      (sample_mem 2).slots.map (sample_mem 2).slot_value ∧
    (((vmdssd_write_mem sample_decls
        (sample_env [⟨"/sys/bus/pci/slots/3".toList, "0000:00:1c".toList⟩]
          (some SYSFS_PCIEHP) 0) (sample_mem 2) 10 ⟨0, []⟩).1,
      (vmdssd_write_mem sample_decls
        (sample_env [⟨"/sys/bus/pci/slots/3".toList, "0000:00:1c".toList⟩]
          (some SYSFS_PCIEHP) 0) (sample_mem 2) 10 ⟨0, []⟩).2.1) =
      vmdssd_write sample_decls
        (sample_env [⟨"/sys/bus/pci/slots/3".toList, "0000:00:1c".toList⟩]
          (some SYSFS_PCIEHP) 0) (sample_mem 2).drive_value 10 ⟨0, []⟩ ∧
    (vmdssd_write_mem sample_decls
        (sample_env [⟨"/sys/bus/pci/slots/3".toList, "0000:00:1c".toList⟩]
          (some SYSFS_PCIEHP) 0) (sample_mem 2) 10 ⟨0, []⟩).2.2.device.ibpi_prev =
      (sample_mem 2).device.ibpi_prev ∧
    (vmdssd_write_mem sample_decls
        (sample_env [⟨"/sys/bus/pci/slots/3".toList, "0000:00:1c".toList⟩]
          (some SYSFS_PCIEHP) 0) (sample_mem 2) 10 ⟨0, []⟩).2.2.device.sysfs_path =
      (sample_mem 2).device.sysfs_path ∧
    (vmdssd_write_mem sample_decls
        (sample_env [⟨"/sys/bus/pci/slots/3".toList, "0000:00:1c".toList⟩]
          (some SYSFS_PCIEHP) 0) (sample_mem 2) 10 ⟨0, []⟩).2.2.cstr
        (sample_mem 2).device.sysfs_path =
      (sample_mem 2).cstr (sample_mem 2).device.sysfs_path ∧
    (vmdssd_write_mem sample_decls
        (sample_env [⟨"/sys/bus/pci/slots/3".toList, "0000:00:1c".toList⟩]
          (some SYSFS_PCIEHP) 0) (sample_mem 2) 10 ⟨0, []⟩).2.2.slots = (sample_mem 2).slots ∧
    (∀ r ∈ (sample_mem 2).slots,
      (vmdssd_write_mem sample_decls
        (sample_env [⟨"/sys/bus/pci/slots/3".toList, "0000:00:1c".toList⟩]
          (some SYSFS_PCIEHP) 0) (sample_mem 2) 10 ⟨0, []⟩).2.2.slot_value r =
        (sample_mem 2).slot_value r) ∧
    (∀ b, b < (sample_mem 2).brk →
      (vmdssd_write_mem sample_decls
        (sample_env [⟨"/sys/bus/pci/slots/3".toList, "0000:00:1c".toList⟩]
          (some SYSFS_PCIEHP) 0) (sample_mem 2) 10 ⟨0, []⟩).2.2.heap b =
        (sample_mem 2).heap b)) :=
  ⟨by unfold Mem.pointers_ok; decide, by decide,
    vmdssd_write_leaves_memory sample_decls
      (sample_env [⟨"/sys/bus/pci/slots/3".toList, "0000:00:1c".toList⟩]
        (some SYSFS_PCIEHP) 0) (sample_mem 2) 10 ⟨0, []⟩
      (by unfold Mem.pointers_ok; decide) (by decide)⟩

/-- The memory-level `vmdssd_write` on the sample memory: with the intent locate the
write happens and 0 is returned; the tokenising works on buffer 3, the copy of the
path, which is freed, and the candidate is copied to buffer 4, which is freed too. -/
theorem vmdssd_write_mem_sample :
    (vmdssd_write_mem sample_decls
      (sample_env [⟨"/sys/bus/pci/slots/3".toList, "0000:00:1c".toList⟩]
        (some SYSFS_PCIEHP) 0) (sample_mem 2) 10 ⟨0, []⟩).1 = 0 ∧
    writes (vmdssd_write_mem sample_decls
      (sample_env [⟨"/sys/bus/pci/slots/3".toList, "0000:00:1c".toList⟩]
        (some SYSFS_PCIEHP) 0) (sample_mem 2) 10 ⟨0, []⟩).2.1.trace =
      [("/sys/bus/pci/slots/3/attention".toList, "7".toList)] ∧
    (vmdssd_write_mem sample_decls
      (sample_env [⟨"/sys/bus/pci/slots/3".toList, "0000:00:1c".toList⟩]
        (some SYSFS_PCIEHP) 0) (sample_mem 2) 10 ⟨0, []⟩).2.2.brk = 5 ∧
    (tokenise_mem (str_dup_mem (sample_mem 2) ⟨0, 0⟩).2 ⟨3, 0⟩).2.heap 3 ≠
      (str_dup_mem (sample_mem 2) ⟨0, 0⟩).2.heap 3 := by
  decide

/-- The memory-level strtok does write in place: applied to the drive's own path
buffer, instead of to a copy, it would cut the path string at the first token. -/
theorem strtok_mem_in_place :
    (strtok_mem (sample_mem 2) (some ⟨0, 0⟩) "/".toList).2.cstr ⟨0, 0⟩ = "/sys".toList ∧
    (sample_mem 2).cstr ⟨0, 0⟩ = "/sys/devices/pci0000:00/0000:00:1c.0/nvme/nvme0".toList := by
  decide

end Vmdssd
